import Mathlib

/-!
# Verification of the `sprig` cat-dev core against its specification

This file shallowly embeds the parts of the `cat-dev` Rust library (and the
`bridgectl` serial line reader) that the specification's claims are about:

* the MION identity announcement / identity reply wire codecs
  (`pkg/cat-dev/src/mion/proto/control/announcement.rs`),
* the parameter-space packets and the well-known parameter name table
  (`pkg/cat-dev/src/mion/proto/parameter/`),
* the read-modify-write parameter set operation
  (`pkg/cat-dev/src/mion/parameter.rs`),
* the host bridge registry (`pkg/cat-dev/src/lib.rs`), and
* the `\r`-delimited asynchronous serial line reader
  (`cmd/bridgectl/src/commands/argv_helpers/serial.rs`).

Bytes are modelled as `Nat` (the Rust code never does byte arithmetic that
can overflow; wherever a multi-byte integer is assembled, the reduction
modulo `2 ^ w` is written out explicitly).  Rust `Bytes` buffers become
`List Nat`, Rust `String`s that only carry raw bytes become `List Nat`
as well, with an explicit rendering function to Lean `String`s.
-/

set_option maxRecDepth 40000

deriving instance DecidableEq for Except

namespace Sprig

/-! ## Error types (`pkg/cat-dev/src/errors.rs`, payload-faithful subset) -/

/-- `NetworkParseError` from `errors.rs`: the discriminated union of decoder
errors.  Static `&'static str` payloads are kept as `String`s. -/
inductive NetworkParseError where
  | UnknownCommand (command : Nat)
  | FieldEncodedIncorrectly (packet field constraint : String)
  | FieldNotLongEnough (packet field : String) (expected got : Nat) (buff : List Nat)
  | NotEnoughData (packet : String) (expected got : Nat) (buff : List Nat)
  | UnexpectedTrailer (packet : String) (trailer : List Nat)
  | PacketDoesntMatchStaticPayload (packet : String) (expected got : List Nat)
  | UnknownParamsPacketType (ty : Int)
  | ParamsPacketErrorCode (code : Int)
  deriving DecidableEq, Repr

/-- `APIError` from `errors.rs` (the variants used by the embedded code). -/
inductive APIError where
  | DeviceNameMustBeAscii
  | DeviceNameTooLong (len : Nat)
  | DeviceNameCannotBeEmpty
  | DefaultDeviceMustExist
  | MIONParameterNotInRage (idx : Nat)
  | MIONParameterNameNotKnown (name : String)
  | MIONParameterBodyNotCorrectLength (len : Nat)
  deriving DecidableEq, Repr

/-! ## IPv4 addresses (`std::net::Ipv4Addr`)

Only construction, dotted-decimal display and parsing are needed.  The Rust
parser accepts exactly four groups of one to three decimal digits separated
by `.`, rejects leading zeros (`"01"`), and requires every group value to be
at most 255. -/

structure Ipv4Addr where
  a : Nat
  b : Nat
  c : Nat
  d : Nat
  deriving DecidableEq, Repr

/-- Dotted-decimal rendering, `format!("{bridge_ip}")` in Rust. -/
def Ipv4Addr.display (ip : Ipv4Addr) : String :=
  Nat.repr ip.a ++ "." ++ Nat.repr ip.b ++ "." ++ Nat.repr ip.c ++ "." ++ Nat.repr ip.d

/-- Split a character list on `'.'` (used to model the group structure of
Rust's IPv4 parser). -/
def splitOnDot : List Char → List (List Char)
  | [] => [[]]
  | c :: rest =>
    match splitOnDot rest with
    | g :: gs => if c = '.' then [] :: g :: gs else (c :: g) :: gs
    | [] => [[c]]

/-- One octet: one to three decimal digits, no leading zero unless the octet
is exactly `"0"`, value at most 255. -/
def parseOctet? (g : List Char) : Option Nat :=
  if g.isEmpty then none
  else if ¬ g.all (fun c => c.isDigit) then none
  else if 3 < g.length then none
  else if g.head? = some '0' ∧ g.length ≠ 1 then none
  else
    let v := g.foldl (fun acc c => acc * 10 + (c.toNat - 48)) 0
    if v ≤ 255 then some v else none

/-- `str::parse::<Ipv4Addr>()`. -/
def parseIpv4? (s : String) : Option Ipv4Addr :=
  match (splitOnDot s.data).map parseOctet? with
  | [some a, some b, some c, some d] => some ⟨a, b, c, d⟩
  | _ => none

/-! ## The host bridge registry (`pkg/cat-dev/src/lib.rs`)

`BridgeHostState` wraps a `configparser::ini::Ini` created with
`Ini::new_cs` (case-sensitive).  All of its operations address the single
section `HOST_BRIDGES`, so the state is modelled as that section alone: an
association list from keys to optional values, mirroring the
`Map<String, Option<String>>` the `configparser` crate keeps per section.

`configparser`'s accessors behave as follows (case-sensitive mode):

* `get(sec, key)` clones the stored `Option<String>`, so a key that is
  present without a value also yields `None`;
* `set(sec, key, value)` replaces the entry for `key` or inserts it;
* `remove_key(sec, key)` deletes the entry for `key`.
-/

/-- The `HOST_BRIDGES` section of the registry ini file. -/
abbrev IniSection := List (String × Option String)

/-- `Ini::get` restricted to the `HOST_BRIDGES` section. -/
def iniGet : IniSection → String → Option String
  | [], _ => none
  | (k, v) :: rest, key => if k = key then v else iniGet rest key

/-- `Ini::set` restricted to the `HOST_BRIDGES` section. -/
def iniSet : IniSection → String → Option String → IniSection
  | [], key, value => [(key, value)]
  | (k, v) :: rest, key, value =>
    if k = key then (key, value) :: rest else (k, v) :: iniSet rest key value

/-- `Ini::remove_key` restricted to the `HOST_BRIDGES` section.  A map never
holds a key twice, so removing every matching entry of the association list
models it faithfully. -/
def iniRemoveKey : IniSection → String → IniSection
  | [], _ => []
  | (k, v) :: rest, key =>
    if k = key then iniRemoveKey rest key else (k, v) :: iniRemoveKey rest key

/-- `BRIDGE_NAME_KEY_PREFIX`. -/
def BRIDGE_NAME_KEY_PREFIX : String := "BRIDGE_NAME_"

/-- `DEFAULT_BRIDGE_KEY`. -/
def DEFAULT_BRIDGE_KEY : String := "BRIDGE_DEFAULT_NAME"

/-- `str::trim_start_matches`: repeatedly strip `p` from the front while it
is a (non-empty) prefix.  Each strip removes at least one character, so
`s.length` steps of fuel always suffice. -/
def trimStartMatchesAux (p : List Char) : Nat → List Char → List Char
  | 0, s => s
  | fuel + 1, s =>
    if p ≠ [] ∧ p.isPrefixOf s then trimStartMatchesAux p fuel (s.drop p.length) else s

/-- `s.trim_start_matches(p)`. -/
def trimStartMatches (p s : String) : String :=
  ⟨trimStartMatchesAux p.data s.data.length s.data⟩

/-- `str::is_ascii` (every byte, hence for a `String` every char, below
`0x80`). -/
def isAsciiString (s : String) : Bool :=
  s.data.all (fun c => c.toNat < 128)

/-- `BridgeHostState::get_default_bridge`. -/
def getDefaultBridge (sec : IniSection) : Option (String × Option Ipv4Addr) :=
  match iniGet sec DEFAULT_BRIDGE_KEY with
  | some host_key =>
    some (trimStartMatches BRIDGE_NAME_KEY_PREFIX host_key,
      (iniGet sec host_key).bind parseIpv4?)
  | none => none

/-- `BridgeHostState::get_bridge`, returning `(BridgeIP, IsDefault)`. -/
def getBridge (sec : IniSection) (bridge_name : String) : Option (Option Ipv4Addr × Bool) :=
  let default_key := iniGet sec DEFAULT_BRIDGE_KEY
  let key := BRIDGE_NAME_KEY_PREFIX ++ bridge_name
  let is_default := default_key = some key
  (iniGet sec key).map (fun value => (parseIpv4? value, is_default))

/-- `BridgeHostState::upsert_bridge`.  Rust mutates `&mut self` and returns
`Result<(), APIError>`; the pair returns the result together with the state
after the call (unchanged on the early error returns).  At the length check
the name is already known to be ASCII, so its UTF-8 byte length equals its
character count. -/
def upsertBridge (sec : IniSection) (bridge_name : String) (bridge_ip : Ipv4Addr) :
    Except APIError Unit × IniSection :=
  if ¬ isAsciiString bridge_name then (.error .DeviceNameMustBeAscii, sec)
  else if bridge_name.data.isEmpty then (.error .DeviceNameCannotBeEmpty, sec)
  else if 255 < bridge_name.data.length then
    (.error (.DeviceNameTooLong bridge_name.data.length), sec)
  else
    (.ok (),
      iniSet sec (BRIDGE_NAME_KEY_PREFIX ++ bridge_name) (some bridge_ip.display))

/-- `BridgeHostState::remove_bridge`. -/
def removeBridge (sec : IniSection) (bridge_name : String) : IniSection :=
  iniRemoveKey sec (BRIDGE_NAME_KEY_PREFIX ++ bridge_name)

/-- `BridgeHostState::remove_default_bridge`. -/
def removeDefaultBridge (sec : IniSection) : IniSection :=
  iniRemoveKey sec DEFAULT_BRIDGE_KEY

/-- `BridgeHostState::set_default_bridge`. -/
def setDefaultBridge (sec : IniSection) (bridge_name : String) :
    Except APIError Unit × IniSection :=
  if ¬ isAsciiString bridge_name then (.error .DeviceNameMustBeAscii, sec)
  else if bridge_name.data.isEmpty then (.error .DeviceNameCannotBeEmpty, sec)
  else if 255 < bridge_name.data.length then
    (.error (.DeviceNameTooLong bridge_name.data.length), sec)
  else if iniGet sec (BRIDGE_NAME_KEY_PREFIX ++ bridge_name) = none then
    (.error .DefaultDeviceMustExist, sec)
  else
    (.ok (), iniSet sec DEFAULT_BRIDGE_KEY (some (BRIDGE_NAME_KEY_PREFIX ++ bridge_name)))

/-! ## Identity wire codecs
(`pkg/cat-dev/src/mion/proto/control/announcement.rs`)

Command bytes (`MionCommandByte`): `AnnounceYourselves = 0x2A`,
`AcknowledgeAnnouncement = 0x20`. -/

/-- The bytes of `ANNOUNCEMENT_MESSAGE = "MULTI_I/O_NETWORK_BOARD"`. -/
def ANNOUNCEMENT_MESSAGE_BYTES : List Nat :=
  [77, 85, 76, 84, 73, 95, 73, 47, 79, 95, 78, 69, 84, 87, 79, 82, 75, 95, 66, 79, 65, 82, 68]

/-- The bytes of `DETAIL_FLAG_MESSAGE = "enumV1"` followed by the two NUL
terminators; this is what `packet[25..]` is compared against. -/
def DETAIL_FLAG_TAIL_BYTES : List Nat := [101, 110, 117, 109, 86, 49, 0, 0]

/-- `MionIdentityAnnouncement`. -/
structure MionIdentityAnnouncement where
  detailed : Bool
  deriving DecidableEq, Repr

/-- `From<&MionIdentityAnnouncement> for Bytes`: command byte, the static
message, a NUL, and (for detailed requests) `enumV1` plus `put_u16(0)`
(two NUL bytes). -/
def encodeMionIdentityAnnouncement (this : MionIdentityAnnouncement) : List Nat :=
  0x2A :: ANNOUNCEMENT_MESSAGE_BYTES ++ [0] ++
    (if this.detailed then DETAIL_FLAG_TAIL_BYTES else [])

/-- `TryFrom<Bytes> for MionIdentityAnnouncement`.  Byte indexing
(`packet[0]`, `packet[24]`) is rendered with `getD`; the indices are in
range because of the preceding length checks. -/
def decodeMionIdentityAnnouncement (packet : List Nat) :
    Except NetworkParseError MionIdentityAnnouncement :=
  if packet.length < 25 then
    .error (.NotEnoughData "MionIdentityAnnouncement" 25 packet.length packet)
  else if 33 < packet.length then
    .error (.UnexpectedTrailer "MionIdentityAnnouncement" (packet.drop 33))
  -- `is_detailed` (`packet.len() > 25`) is inlined below.
  else if packet.getD 0 0 ≠ 0x2A then .error (.UnknownCommand (packet.getD 0 0))
  else if (packet.drop 1).take 23 ≠ ANNOUNCEMENT_MESSAGE_BYTES then
    .error (.FieldEncodedIncorrectly "MionIdentityAnnouncement" "buff"
      "Must start with static message: `MULTI_I/O_NETWORK_BOARD` with a NUL Terminator")
  else if packet.getD 24 0 ≠ 0 then
    .error (.FieldEncodedIncorrectly "MionIdentityAnnouncement" "buff"
      "Must start with static message: `MULTI_I/O_NETWORK_BOARD` with a NUL Terminator")
  else if 25 < packet.length ∧ packet.drop 25 ≠ DETAIL_FLAG_TAIL_BYTES then
    .error (.FieldEncodedIncorrectly "MionIdentityAnnouncement" "buff"
      "Only the static string `enumV1` followed by two NUL Terminators is allowed after `MULTI_I/O_NETWORK_BOARD`.")
  else .ok ⟨decide (25 < packet.length)⟩

/-- `MIONBootType`. -/
inductive MIONBootType where
  | PCFS
  | Unk (value : Nat)
  deriving DecidableEq, Repr

/-- `From<u8> for MIONBootType`. -/
def bootTypeFromByte (value : Nat) : MIONBootType :=
  if value = 0x2 then .PCFS else .Unk value

/-- `MIONBootType::fmt`. -/
def MIONBootType.display : MIONBootType → String
  | .PCFS => "PCFS"
  | .Unk value => "Unk(" ++ Nat.repr value ++ ")"

/-- A `[u8; 4]` version field. -/
structure ByteQuad where
  b0 : Nat
  b1 : Nat
  b2 : Nat
  b3 : Nat
  deriving DecidableEq, Repr

/-- `mac_address::MacAddress` (`[u8; 6]`). -/
structure MacAddress where
  m0 : Nat
  m1 : Nat
  m2 : Nat
  m3 : Nat
  m4 : Nat
  m5 : Nat
  deriving DecidableEq, Repr

/-- `MionIdentity`.  The Rust `name: String` holds the raw (ASCII-checked)
name bytes, so it is embedded as the byte list; `MionIdentity.nameString`
renders it the way Rust's `Display`/`name()` expose it. -/
structure MionIdentity where
  detailed_all : Option (List Nat)
  firmware_version : ByteQuad
  fpga_version : ByteQuad
  ip_address : Ipv4Addr
  mac : MacAddress
  name : List Nat
  deriving DecidableEq, Repr

/-- The Rust `String` contents of an ASCII byte sequence. -/
def asciiString (bytes : List Nat) : String :=
  ⟨bytes.map (fun b => Char.ofNat b)⟩

/-- `MionIdentity::name`. -/
def MionIdentity.nameString (v : MionIdentity) : String :=
  asciiString v.name

/-- Lower-case hex digit (for `{:x}` / `{:02x}`). -/
def hexDigitLower (n : Nat) : Char :=
  if n < 10 then Char.ofNat (48 + n) else Char.ofNat (87 + n)

/-- Upper-case hex digit (for `{:02X}`). -/
def hexDigitUpper (n : Nat) : Char :=
  if n < 10 then Char.ofNat (48 + n) else Char.ofNat (55 + n)

/-- `{byte:02x}`. -/
def byteHexPadLower (b : Nat) : String :=
  ⟨[hexDigitLower (b / 16 % 16), hexDigitLower (b % 16)]⟩

/-- `{byte:02X}`. -/
def byteHexPadUpper (b : Nat) : String :=
  ⟨[hexDigitUpper (b / 16 % 16), hexDigitUpper (b % 16)]⟩

/-- `MionIdentity::firmware_version` (the display form
`"0.{b0}.{b1}.{b2}"`). -/
def MionIdentity.firmwareVersionString (v : MionIdentity) : String :=
  "0." ++ Nat.repr v.firmware_version.b0 ++ "." ++ Nat.repr v.firmware_version.b1 ++
    "." ++ Nat.repr v.firmware_version.b2

/-- `MionIdentity::detailed_fpga_version`: the four FPGA bytes in reversed
order, each rendered `{:02x}`. -/
def MionIdentity.detailedFpgaVersion (v : MionIdentity) : String :=
  byteHexPadLower v.fpga_version.b3 ++ byteHexPadLower v.fpga_version.b2 ++
    byteHexPadLower v.fpga_version.b1 ++ byteHexPadLower v.fpga_version.b0

/-- `mac_address::MacAddress`'s `Display` (`{:02X}` pairs joined by `:`). -/
def MacAddress.display (m : MacAddress) : String :=
  byteHexPadUpper m.m0 ++ ":" ++ byteHexPadUpper m.m1 ++ ":" ++ byteHexPadUpper m.m2 ++
    ":" ++ byteHexPadUpper m.m3 ++ ":" ++ byteHexPadUpper m.m4 ++ ":" ++ byteHexPadUpper m.m5

/-- `MionIdentity::detailed_sdk_version`; the detailed block indices
227..=230 are always in range because decoding only ever stores a 239-byte
block.  When the fourth byte is zero the display omits it. -/
def MionIdentity.detailedSdkVersion (v : MionIdentity) : Option String :=
  v.detailed_all.map (fun extra_data =>
    let b0 := extra_data.getD 227 0
    let b1 := extra_data.getD 228 0
    let b2 := extra_data.getD 229 0
    let b3 := extra_data.getD 230 0
    if b3 = 0 then
      Nat.repr b0 ++ "." ++ Nat.repr b1 ++ "." ++ Nat.repr b2
    else
      Nat.repr b0 ++ "." ++ Nat.repr b1 ++ "." ++ Nat.repr b2 ++ "." ++ Nat.repr b3)

/-- `MionIdentity::detailed_boot_type` (detailed byte 232). -/
def MionIdentity.detailedBootType (v : MionIdentity) : Option MIONBootType :=
  v.detailed_all.map (fun extra_data => bootTypeFromByte (extra_data.getD 232 0))

/-- `MionIdentity::detailed_is_cafe_on` (detailed byte 233 non-zero). -/
def MionIdentity.detailedIsCafeOn (v : MionIdentity) : Option Bool :=
  v.detailed_all.map (fun extra_data => 0 < extra_data.getD 233 0)

/-- `TryFrom<(Ipv4Addr, Bytes)> for MionIdentity`.  The first sixteen bytes
are destructured positionally (command byte, six MAC bytes, the name-length
byte, four FPGA bytes, four firmware bytes); `rest` is everything from byte
16 on, so `packet.len() = 16 + rest.length`.

Rust validates the name with `String::from_utf8` and then `is_ascii`, both
failures producing the identical
`FieldEncodedIncorrectly("MionIdentity", "name", "ASCII")` value; since
every all-ASCII byte sequence is valid UTF-8, the two checks together
succeed exactly when every name byte is below `0x80`. -/
def decodeMionIdentity (from_address : Ipv4Addr) (packet : List Nat) :
    Except NetworkParseError MionIdentity :=
  match packet with
  | c :: b1 :: b2 :: b3 :: b4 :: b5 :: b6 :: nl :: g1 :: g2 :: g3 :: g4 ::
      w1 :: w2 :: w3 :: w4 :: rest =>
    -- Packet must be at least 17 bytes (name starts at byte 16 and must be
    -- at least one byte long).
    if rest.isEmpty then
      .error (.NotEnoughData "MionIdentity" 17 packet.length packet)
    else if c ≠ 0x20 then
      .error (.UnknownCommand c)
    else
      let name_length := nl
      if rest.length < name_length then
        .error (.NotEnoughData "MionIdentity" (16 + name_length) packet.length packet)
      else if name_length < 1 then
        .error (.FieldNotLongEnough "MionIdentity" "name" 1 name_length packet)
      else if name_length + 239 < rest.length then
        .error (.UnexpectedTrailer "MionIdentity" (rest.drop (name_length + 239)))
      else if rest.length ≠ name_length ∧ rest.length ≠ name_length + 239 then
        .error (.UnexpectedTrailer "MionIdentity" (rest.drop name_length))
      else
        let name_bytes := rest.take name_length
        if ¬ name_bytes.all (fun b => b < 0x80) then
          .error (.FieldEncodedIncorrectly "MionIdentity" "name" "ASCII")
        else
          let is_detailed := name_length < rest.length
          .ok
            { detailed_all := if is_detailed then some (rest.drop name_length) else none
              firmware_version := ⟨w1, w2, w3, w4⟩
              fpga_version := ⟨g1, g2, g3, g4⟩
              ip_address := from_address
              mac := ⟨b1, b2, b3, b4, b5, b6⟩
              name := name_bytes }
  | _ => .error (.NotEnoughData "MionIdentity" 17 packet.length packet)

/-- `From<&MionIdentity> for Bytes`: command byte, MAC, the name-length
byte (`u8::try_from(len).unwrap_or(u8::MAX)`), FPGA, firmware, and the name
bytes.  Note that the detailed block is *not* written. -/
def encodeMionIdentity (value : MionIdentity) : List Nat :=
  0x20 :: value.mac.m0 :: value.mac.m1 :: value.mac.m2 :: value.mac.m3 ::
    value.mac.m4 :: value.mac.m5 ::
    (if value.name.length ≤ 255 then value.name.length else 255) ::
    value.fpga_version.b0 :: value.fpga_version.b1 :: value.fpga_version.b2 ::
    value.fpga_version.b3 :: value.firmware_version.b0 :: value.firmware_version.b1 ::
    value.firmware_version.b2 :: value.firmware_version.b3 :: value.name

/-- Well-formedness from `MionIdentity::new` plus the shape any decoded
identity has: a non-empty ASCII name of at most 255 bytes, and a detailed
block (when present) of exactly 239 bytes. -/
def DetailedBlockWF : Option (List Nat) → Prop
  | some d => d.length = 239
  | none => True

instance : ∀ o, Decidable (DetailedBlockWF o)
  | some d => inferInstanceAs (Decidable (d.length = 239))
  | none => inferInstanceAs (Decidable True)

def MionIdentityWF (v : MionIdentity) : Prop :=
  v.name ≠ [] ∧ v.name.length ≤ 255 ∧ v.name.all (fun b => b < 0x80) = true ∧
    DetailedBlockWF v.detailed_all

instance (v : MionIdentity) : Decidable (MionIdentityWF v) :=
  inferInstanceAs (Decidable (v.name ≠ [] ∧ v.name.length ≤ 255 ∧
    v.name.all (fun b => b < 0x80) = true ∧ DetailedBlockWF v.detailed_all))

/-! ## Parameter-space packets and well-known names
(`pkg/cat-dev/src/mion/proto/parameter/`) -/

/-- `str::parse::<usize>`: an optional leading `+`, then one or more ASCII
digits; the value must fit in the 64-bit `usize` (otherwise the parse
overflows and errors). -/
def parseUsize? (s : String) : Option Nat :=
  match s.data with
  | [] => none
  | c :: rest =>
    let digits := if c = '+' then rest else c :: rest
    if digits.isEmpty then none
    else if ¬ digits.all (fun ch => ch.isDigit) then none
    else
      let n := digits.foldl (fun acc ch => acc * 10 + (ch.toNat - 48)) 0
      if n < 2 ^ 64 then some n else none

/-- The arms of the name `match` in `index_from_parameter_name`, in source
order. -/
def wellKnownParameterTable : List (String × Nat) :=
  [("nand-mode", 2), ("nand_mode", 2), ("nandmode", 2), ("nand mode", 2),
   ("sdk-major", 3), ("sdk_major", 3), ("sdk major", 3), ("sdk-major-version", 3),
   ("sdk_major_version", 3), ("sdk major version", 3), ("major-version", 3),
   ("major_version", 3), ("major version", 3), ("major", 3),
   ("sdk-minor", 4), ("sdk_minor", 4), ("sdk minor", 4), ("sdk-minor-version", 4),
   ("sdk_minor_version", 4), ("sdk minor version", 4), ("minor-version", 4),
   ("minor_version", 4), ("minor version", 4), ("minor", 4),
   ("sdk-misc", 5), ("sdk_misc", 5), ("sdk misc", 5), ("sdk-misc-version", 5),
   ("sdk_misc_version", 5), ("sdk misc version", 5), ("misc-version", 5),
   ("misc_version", 5), ("misc version", 5), ("misc", 5)]

/-- The name `match` of `index_from_parameter_name`. -/
def wellKnownParameterLookup (name : String) : Option Nat :=
  (wellKnownParameterTable.find? (fun p => p.1 == name)).map (fun p => p.2)

/-- `index_from_parameter_name`: a decimal string below 512 resolves to its
value; otherwise the well-known-name table is consulted. -/
def index_from_parameter_name (name : String) : Option Nat :=
  match parseUsize? name with
  | some number => if number < 512 then some number else wellKnownParameterLookup name
  | none => wellKnownParameterLookup name

/-- `ParameterLocationSpecification`. -/
inductive ParameterLocationSpecification where
  | NameLike (name : String)
  | Index (index : Nat)
  deriving DecidableEq, Repr

/-- `TryFrom<u16> for ParameterLocationSpecification` (the range-checked
`Index` constructor). -/
def locationSpecificationFromU16 (value : Nat) :
    Except APIError ParameterLocationSpecification :=
  if value < 512 then .ok (.Index value)
  else .error (.MIONParameterNotInRage value)

/-- `PacketType`. -/
inductive PacketType where
  | Read
  | Write
  deriving DecidableEq, Repr

/-- `From<PacketType> for i32`. -/
def PacketType.toI32 : PacketType → Int
  | .Read => 0
  | .Write => 1

/-- `TryFrom<i32> for PacketType`. -/
def packetTypeFromI32 (value : Int) : Except NetworkParseError PacketType :=
  if value = 0 then .ok .Read
  else if value = 1 then .ok .Write
  else .error (.UnknownParamsPacketType value)

/-- `i32::from_le_bytes`: assemble four bytes little-endian (each reduced
modulo `2 ^ 8`) and reinterpret the 32-bit pattern as a signed value. -/
def i32FromLeBytes (b0 b1 b2 b3 : Nat) : Int :=
  let n := b0 % 256 + 256 * (b1 % 256) + 65536 * (b2 % 256) + 16777216 * (b3 % 256)
  if n < 2147483648 then (n : Int) else (n : Int) - 4294967296

/-- `DumpedMionParameters` (the parsed 520-byte dump response). -/
structure DumpedMionParameters where
  parameters : List Nat
  deriving DecidableEq, Repr

/-- `SetMionParameters` (the 520-byte write request). -/
structure SetMionParameters where
  parameters : List Nat
  deriving DecidableEq, Repr

/-- The result of `get_parameter_by_index`.  `panicOOB` marks the only
place the Rust code could index out of bounds (`self.parameters[index]`);
the theorems show it is unreachable for constructor-produced values. -/
inductive ParamGetResult where
  | ok (byte : Nat)
  | err (error : APIError)
  | panicOOB
  deriving DecidableEq, Repr

/-- `TryFrom<Bytes> for DumpedMionParameters`. -/
def decodeDumpedMionParameters (packet : List Nat) :
    Except NetworkParseError DumpedMionParameters :=
  if packet.length < 520 then
    .error (.NotEnoughData "DumpedMionParameters" 520 packet.length packet)
  else if 520 < packet.length then
    .error (.UnexpectedTrailer "DumpedMionParameters" (packet.drop 520))
  else
    match packetTypeFromI32 (i32FromLeBytes (packet.getD 0 0) (packet.getD 1 0)
        (packet.getD 2 0) (packet.getD 3 0)) with
    | .error e => .error e
    | .ok packet_type =>
      if packet_type ≠ .Read then
        .error (.UnknownParamsPacketType packet_type.toI32)
      else if i32FromLeBytes (packet.getD 4 0) (packet.getD 5 0)
          (packet.getD 6 0) (packet.getD 7 0) ≠ 512 then
        .error (.ParamsPacketErrorCode (i32FromLeBytes (packet.getD 4 0)
          (packet.getD 5 0) (packet.getD 6 0) (packet.getD 7 0)))
      else .ok ⟨packet.drop 8⟩

/-- `DumpedMionParameters::get_parameter_by_index`. -/
def DumpedMionParameters.get_parameter_by_index (self : DumpedMionParameters)
    (index : Nat) : ParamGetResult :=
  if 511 < index then .err (.MIONParameterNotInRage index)
  else
    match self.parameters[index]? with
    | some byte => .ok byte
    | none => .panicOOB

/-- `SetMionParameters::new` (requires exactly 512 parameter bytes). -/
def SetMionParameters.new (parameters : List Nat) :
    Except APIError SetMionParameters :=
  if parameters.length ≠ 512 then
    .error (.MIONParameterBodyNotCorrectLength parameters.length)
  else .ok ⟨parameters⟩

/-- `TryFrom<Bytes> for SetMionParameters` (a 520-byte packet whose header
is `(Write, 512)`). -/
def decodeSetMionParameters (packet : List Nat) :
    Except NetworkParseError SetMionParameters :=
  if packet.length < 520 then
    .error (.NotEnoughData "SetMionParameters" 520 packet.length packet)
  else if 520 < packet.length then
    .error (.UnexpectedTrailer "SetMionParameters" (packet.drop 520))
  else
    match packetTypeFromI32 (i32FromLeBytes (packet.getD 0 0) (packet.getD 1 0)
        (packet.getD 2 0) (packet.getD 3 0)) with
    | .error e => .error e
    | .ok packet_type =>
      if packet_type ≠ .Write then
        .error (.UnknownParamsPacketType packet_type.toI32)
      else if i32FromLeBytes (packet.getD 4 0) (packet.getD 5 0)
          (packet.getD 6 0) (packet.getD 7 0) ≠ 512 then
        .error (.ParamsPacketErrorCode (i32FromLeBytes (packet.getD 4 0)
          (packet.getD 5 0) (packet.getD 6 0) (packet.getD 7 0)))
      else .ok ⟨packet.drop 8⟩

/-- `SetMionParameters::get_parameter_by_index`. -/
def SetMionParameters.get_parameter_by_index (self : SetMionParameters)
    (index : Nat) : ParamGetResult :=
  if 511 < index then .err (.MIONParameterNotInRage index)
  else
    match self.parameters[index]? with
    | some byte => .ok byte
    | none => .panicOOB

/-! ## The read-modify-write mutation step of `set_parameters`
(`pkg/cat-dev/src/mion/parameter.rs`, lines 254-269)

The network phases (dump request, write request, 12-byte response) around
the in-memory mutation loop are I/O; the loop itself is pure and is
embedded here.  `FnvHashMap<usize, u8>` becomes an association list with
replace-on-insert semantics. -/

/-- The location resolution inside the mutation loop: `Index` is used as
is, `NameLike` goes through `index_from_parameter_name` and unknown names
error with `MIONParameterNameNotKnown`. -/
def resolveLocation : ParameterLocationSpecification → Except APIError Nat
  | .Index idx => .ok idx
  | .NameLike name =>
    match index_from_parameter_name name with
    | some idx => .ok idx
    | none => .error (.MIONParameterNameNotKnown name)

/-- `FnvHashMap::insert` on an association list (replace or append). -/
def assocInsert : List (Nat × Nat) → Nat → Nat → List (Nat × Nat)
  | [], key, value => [(key, value)]
  | (k, v) :: rest, key, value =>
    if k = key then (key, value) :: rest else (k, v) :: assocInsert rest key value

/-- `FnvHashMap::get` on an association list. -/
def assocLookup : List (Nat × Nat) → Nat → Option Nat
  | [], _ => none
  | (k, v) :: rest, key => if k = key then some v else assocLookup rest key

/-- A failure of the mutation loop: a Rust `Err` return carrying an
`APIError`, or the panic of `got_parameters.get_raw_parameters()[location]`
on an out-of-range location. -/
inductive SetParametersFailure where
  | api (error : APIError)
  | indexPanic (location : Nat)
  deriving DecidableEq, Repr

/-- The `for (location_spec, new_value) in parameters_to_set` loop of
`set_parameters_with_logging_hooks`: each original value is read from the
*dumped* block, recorded in the old-values map, and the new value written
into the in-memory copy. -/
def applyParameterMutations (dump : List Nat)
    (parameters_to_set : List (ParameterLocationSpecification × Nat)) :
    Except SetParametersFailure (List Nat × List (Nat × Nat)) :=
  go parameters_to_set dump []
where
  go : List (ParameterLocationSpecification × Nat) → List Nat → List (Nat × Nat) →
      Except SetParametersFailure (List Nat × List (Nat × Nat))
  | [], new_parameters, old_values_map => .ok (new_parameters, old_values_map)
  | (location_spec, new_value) :: rest, new_parameters, old_values_map =>
    match resolveLocation location_spec with
    | .error e => .error (.api e)
    | .ok location =>
      match dump[location]? with
      | none => .error (.indexPanic location)
      | some orig_value =>
        go rest (new_parameters.set location new_value)
          (assocInsert old_values_map location orig_value)

/-- A mutation whose location came through the public constructors:
`Index` values are range-checked by `TryFrom<u16>`, `NameLike` values by
`TryFrom<&str>` (which requires the name to resolve). -/
def MutationWF (m : ParameterLocationSpecification × Nat) : Prop :=
  match m.1 with
  | .Index idx => idx < 512
  | .NameLike name => (index_from_parameter_name name).isSome = true

instance : (m : ParameterLocationSpecification × Nat) → Decidable (MutationWF m)
  | (.Index idx, _) => inferInstanceAs (Decidable (idx < 512))
  | (.NameLike name, _) =>
    inferInstanceAs (Decidable ((index_from_parameter_name name).isSome = true))

/-- The value the loop leaves at index `i`: the last mutation that resolves
to `i` wins. -/
def lastMutationValue : List (ParameterLocationSpecification × Nat) → Nat → Option Nat
  | [], _ => none
  | m :: rest, i =>
    match lastMutationValue rest i with
    | some v => some v
    | none =>
      match resolveLocation m.1 with
      | .ok loc => if loc = i then some m.2 else none
      | .error _ => none

/-! ## The serial line reader
(`cmd/bridgectl/src/commands/argv_helpers/serial.rs`)

The underlying `AsyncBufRead` is modelled as a byte list: `poll_fill_buf`
returns all remaining bytes (and the empty slice at EOF), `consume(used)`
drops them.  `Poll::Pending` never arises in this pure model, so each
`next_line` call runs to completion. -/

/-- UTF-8 continuation byte (`0x80..=0xBF`). -/
def isUtf8Cont (b : Nat) : Bool :=
  0x80 ≤ b ∧ b ≤ 0xBF

/-- `String::from_utf8` on the char level: strict UTF-8 decoding with the
usual overlong-form, surrogate and range rejections. -/
def utf8DecodeChars : List Nat → Option (List Char)
  | [] => some []
  | b :: rest =>
    if b < 0x80 then
      (utf8DecodeChars rest).map (fun cs => Char.ofNat b :: cs)
    else if 0xC2 ≤ b ∧ b ≤ 0xDF then
      match rest with
      | c1 :: rest1 =>
        if isUtf8Cont c1 then
          (utf8DecodeChars rest1).map
            (fun cs => Char.ofNat ((b - 0xC0) * 64 + (c1 - 0x80)) :: cs)
        else none
      | [] => none
    else if 0xE0 ≤ b ∧ b ≤ 0xEF then
      match rest with
      | c1 :: c2 :: rest2 =>
        if isUtf8Cont c1 ∧ isUtf8Cont c2 ∧
            (b ≠ 0xE0 ∨ 0xA0 ≤ c1) ∧ (b ≠ 0xED ∨ c1 ≤ 0x9F) then
          (utf8DecodeChars rest2).map
            (fun cs =>
              Char.ofNat ((b - 0xE0) * 4096 + (c1 - 0x80) * 64 + (c2 - 0x80)) :: cs)
        else none
      | _ => none
    else if 0xF0 ≤ b ∧ b ≤ 0xF4 then
      match rest with
      | c1 :: c2 :: c3 :: rest3 =>
        if isUtf8Cont c1 ∧ isUtf8Cont c2 ∧ isUtf8Cont c3 ∧
            (b ≠ 0xF0 ∨ 0x90 ≤ c1) ∧ (b ≠ 0xF4 ∨ c1 ≤ 0x8F) then
          (utf8DecodeChars rest3).map
            (fun cs =>
              Char.ofNat ((b - 0xF0) * 262144 + (c1 - 0x80) * 4096 +
                (c2 - 0x80) * 64 + (c3 - 0x80)) :: cs)
        else none
      | _ => none
    else none

/-- `String::from_utf8`. -/
def utf8Decode? (bytes : List Nat) : Option String :=
  (utf8DecodeChars bytes).map (fun cs => ⟨cs⟩)

/-- `memchr` (first index of `needle`). -/
def serialMemchr (needle : Nat) (haystack : List Nat) : Option Nat :=
  haystack.findIdx? (fun b => b == needle)

/-- The state of `SerialLines` between `next_line` calls: the unread part
of the source, the `bytes` vector, and the `buf` string. -/
structure SerialLinesState where
  source : List Nat
  bytes : List Nat
  buf : String
  deriving DecidableEq, Repr

/-- `read_until_internal`: fill from the source, scan for the delimiter,
and consume through it (or consume everything and finish on the zero-length
EOF fill).  Returns the `read` counter (bytes consumed by this call), the
extended `bytes` buffer, and the remaining source. -/
def readUntilInternal (delimiter : Nat) (source buf : List Nat) :
    Nat × List Nat × List Nat :=
  match serialMemchr delimiter source with
  | some i => (i + 1, buf ++ source.take (i + 1), source.drop (i + 1))
  | none => (source.length, buf ++ source, [])

/-- `read_line_internal`: run `read_until_internal` for `\r`, take the
`bytes` buffer and validate it as UTF-8.  On success the string lands in
`output` and the byte buffer is left empty.  On failure
(`finish_string_read` with `Ok/Err`), `put_back_original_data` restores the
bytes that were already buffered *before* this call into `output` (that
restoration `expect`s the original data to be valid UTF-8; the `getD ""`
below marks that panic path) and an `InvalidData` error is returned.
Returns (io result carrying `read`, output string, bytes buffer, remaining
source). -/
def readLineInternal (source buf : List Nat) :
    Except Unit Nat × String × List Nat × List Nat :=
  let r := readUntilInternal 13 source buf
  match utf8Decode? r.2.1 with
  | some string => (.ok r.1, string, [], r.2.2)
  | none =>
    let original := r.2.1.take (r.2.1.length - r.1)
    (.error (), (utf8Decode? original).getD "", [], r.2.2)

/-- `SerialLines::poll_next_line`: `None` on a zero-byte read with an empty
buffer, otherwise the buffered line with one trailing `'\r'` stripped. -/
def pollNextLine (st : SerialLinesState) : Except Unit (Option String) × SerialLinesState :=
  match readLineInternal st.source st.bytes with
  | (.error e, output, bytes, source) => (.error e, ⟨source, bytes, output⟩)
  | (.ok n, output, bytes, source) =>
    if n = 0 ∧ output.data.isEmpty then (.ok none, ⟨source, bytes, output⟩)
    else
      let line :=
        if output.data.getLast? = some '\r' then String.mk output.data.dropLast
        else output
      (.ok (some line), ⟨source, bytes, ""⟩)

/-! ## Concrete inputs used by individual claims -/

/-- The `ON_ANNOUNCEMENT` capture from
`test_real_life_detailed_announcements`: a real 272-byte detailed identity
reply (cafe power on). -/
def onAnnouncementPacket : List Nat := [
  32, 0, 37, 92, 186, 90, 0, 17, 113, 32, 5, 19, 0, 14, 80, 1,
  48, 48, 45, 50, 53, 45, 53, 67, 45, 66, 65, 45, 53, 65, 45, 48,
  48, 0, 0, 0, 0, 0, 0, 0, 0, 0, 0, 0, 0, 0, 0, 0,
  0, 0, 0, 0, 0, 0, 0, 0, 0, 0, 0, 0, 0, 0, 0, 0,
  0, 0, 0, 0, 0, 0, 0, 0, 0, 0, 0, 0, 0, 0, 0, 0,
  0, 0, 0, 0, 0, 0, 0, 0, 0, 0, 0, 0, 0, 0, 0, 0,
  0, 0, 0, 0, 0, 0, 0, 0, 0, 0, 0, 0, 0, 0, 0, 0,
  0, 0, 0, 0, 0, 0, 0, 0, 0, 0, 0, 0, 0, 0, 0, 0,
  0, 0, 0, 0, 0, 0, 0, 0, 0, 0, 0, 0, 0, 0, 0, 0,
  0, 0, 0, 0, 0, 0, 0, 0, 0, 0, 0, 0, 0, 0, 0, 0,
  0, 0, 0, 0, 0, 0, 0, 0, 0, 0, 0, 0, 0, 0, 0, 0,
  0, 0, 0, 0, 0, 0, 0, 0, 0, 0, 0, 0, 0, 0, 0, 0,
  0, 0, 0, 0, 0, 0, 0, 0, 0, 0, 0, 0, 0, 0, 0, 0,
  0, 0, 0, 0, 0, 0, 0, 0, 0, 0, 0, 0, 0, 0, 0, 0,
  0, 0, 0, 0, 0, 0, 0, 0, 0, 0, 0, 0, 0, 0, 0, 0,
  0, 0, 0, 0, 0, 0, 0, 0, 0, 0, 0, 0, 0, 0, 0, 0,
  0, 0, 0, 0, 2, 12, 13, 0, 1, 2, 1, 0, 0, 0, 0, 0]

/-- `Ipv4Addr::LOCALHOST`, the source address the real-life test attaches. -/
def localhostIp : Ipv4Addr := ⟨127, 0, 0, 1⟩

/-- A registry holding the single bridge `a` (which is the default), as the
registry scenario in the specification describes. -/
def c2Registry : IniSection :=
  [("BRIDGE_NAME_a", some "192.168.7.40"), ("BRIDGE_DEFAULT_NAME", some "BRIDGE_NAME_a")]

/-- A well-formed detailed identity (239-byte detailed block). -/
def c3DetailedIdentity : MionIdentity :=
  { detailed_all := some (List.replicate 239 0)
    firmware_version := ⟨1, 2, 3, 4⟩
    fpga_version := ⟨5, 6, 7, 8⟩
    ip_address := ⟨9, 10, 11, 12⟩
    mac := ⟨13, 14, 15, 16, 17, 18⟩
    name := [65] }

/-- A registry holding one bridge whose name itself starts with the storage
prefix `BRIDGE_NAME_`. -/
def c5Registry : IniSection := [("BRIDGE_NAME_BRIDGE_NAME_x", some "192.168.1.1")]

/-- A registry with one ordinary bridge, for the `set_default_bridge`
success witness. -/
def c5WitnessRegistry : IniSection := [("BRIDGE_NAME_a", some "192.168.7.40")]

/-- A valid 25-byte announcement followed by one stray NUL byte. -/
def c6TrailingPacket : List Nat :=
  encodeMionIdentityAnnouncement ⟨false⟩ ++ [0]

/-- Classifier used to state that a decoder error is (not) the
`UnexpectedTrailer` variant. -/
def isUnexpectedTrailerError : Except NetworkParseError MionIdentityAnnouncement → Bool
  | .error (.UnexpectedTrailer _ _) => true
  | _ => false

/-- A 512-byte all-zero parameter block. -/
def zeroDump : List Nat := List.replicate 512 0

/-- Mutations for the read-modify-write witness: one well-known name and
one range-checked index. -/
def c4WitnessMutations : List (ParameterLocationSpecification × Nat) :=
  [(.NameLike "nand_mode", 7), (.Index 3, 9)]

/-- A valid 520-byte dump response: header `(Read, 512)` and 512 zero
payload bytes. -/
def c9DumpPacket : List Nat := [0, 0, 0, 0, 0, 2, 0, 0] ++ List.replicate 512 0

/-- A valid 520-byte set request: header `(Write, 512)` and 512 zero
payload bytes. -/
def c9SetPacket : List Nat := [1, 0, 0, 0, 0, 2, 0, 0] ++ List.replicate 512 0

/-- The serial input `"hello\rworld"`. -/
def c8Input : List Nat := [104, 101, 108, 108, 111, 13, 119, 111, 114, 108, 100]

/-- A registry for the upsert frame witness: bridge `b` present and
default. -/
def c10Registry : IniSection :=
  [("BRIDGE_NAME_b", some "10.0.0.1"), ("BRIDGE_DEFAULT_NAME", some "BRIDGE_NAME_b")]

/-! ### Registry lemmas -/

theorem iniGet_iniRemoveKey_self (sec : IniSection) (key : String) :
    iniGet (iniRemoveKey sec key) key = none := by
  induction sec with
  | nil => rfl
  | cons p rest ih =>
    obtain ⟨k, v⟩ := p
    by_cases hk : k = key <;> simp [iniRemoveKey, iniGet, hk, ih]

theorem iniGet_iniRemoveKey_ne (sec : IniSection) (key other : String)
    (h : other ≠ key) : iniGet (iniRemoveKey sec key) other = iniGet sec other := by
  induction sec with
  | nil => rfl
  | cons p rest ih =>
    obtain ⟨k, v⟩ := p
    by_cases hk : k = key
    · subst hk
      simp [iniRemoveKey, iniGet, Ne.symm h, ih]
    · simp [iniRemoveKey, iniGet, hk, ih]

theorem iniGet_iniSet_self (sec : IniSection) (key : String) (value : Option String) :
    iniGet (iniSet sec key value) key = value := by
  induction sec with
  | nil => simp [iniSet, iniGet]
  | cons p rest ih =>
    obtain ⟨k, v⟩ := p
    by_cases hk : k = key <;> simp [iniSet, iniGet, hk, ih]

theorem iniGet_iniSet_ne (sec : IniSection) (key other : String) (value : Option String)
    (h : other ≠ key) : iniGet (iniSet sec key value) other = iniGet sec other := by
  induction sec with
  | nil => simp [iniSet, iniGet, Ne.symm h]
  | cons p rest ih =>
    obtain ⟨k, v⟩ := p
    by_cases hk : k = key
    · subst hk
      simp [iniSet, iniGet, Ne.symm h, ih]
    · simp [iniSet, iniGet, hk, ih]

/-- A bridge key can never collide with the default-pointer key: the two
strings differ at character 7 (`'N'` vs `'D'`). -/
theorem bridgeKey_ne_defaultKey (n : String) :
    BRIDGE_NAME_KEY_PREFIX ++ n ≠ DEFAULT_BRIDGE_KEY := by
  intro h
  have hdata : (BRIDGE_NAME_KEY_PREFIX ++ n).data = DEFAULT_BRIDGE_KEY.data :=
    congrArg String.data h
  rw [String.data_append] at hdata
  have h7 := congrArg (fun l => l[7]?) hdata
  simp only at h7
  have hpref : (BRIDGE_NAME_KEY_PREFIX.data)[7]? = some 'N' := by decide
  have hlen : 7 < BRIDGE_NAME_KEY_PREFIX.data.length := by decide
  rw [List.getElem?_append_left hlen, hpref] at h7
  have hd : (DEFAULT_BRIDGE_KEY.data)[7]? = some 'D' := by decide
  rw [hd] at h7
  simp at h7

/-- Appending distinct names to the bridge-key prefix produces distinct
keys. -/
theorem bridgeKey_inj {m n : String}
    (h : BRIDGE_NAME_KEY_PREFIX ++ m = BRIDGE_NAME_KEY_PREFIX ++ n) : m = n := by
  have hdata := congrArg String.data h
  rw [String.data_append, String.data_append] at hdata
  have hmn := List.append_cancel_left hdata
  cases m; cases n
  exact congrArg String.mk hmn

/-! ### C2 — `remove_bridge` and the default pointer -/

/-- C2 counterexample: in the registry where `a` is the sole bridge and the
default, `remove_bridge("a")` removes the entry but leaves the default
pointer in place, so `get_default_bridge` afterwards names `a` — a bridge
with no present entry — contradicting the claim that the default pointer is
never left dangling by a remove. -/
theorem removeBridge_dangling_default_counterexample :
    getBridge (removeBridge c2Registry "a") "a" = none ∧
    getDefaultBridge (removeBridge c2Registry "a") = some ("a", none) ∧
    ¬ (getDefaultBridge (removeBridge c2Registry "a") = none ∨
        ∃ nm ip, getDefaultBridge (removeBridge c2Registry "a") = some (nm, ip) ∧
          getBridge (removeBridge c2Registry "a") nm ≠ none) := by
  have hbr : getBridge (removeBridge c2Registry "a") "a" = none := by decide
  have hdef : getDefaultBridge (removeBridge c2Registry "a") = some ("a", none) := by decide
  refine ⟨hbr, hdef, ?_⟩
  rintro (h | ⟨nm, ip, hsome, hne⟩)
  · rw [hdef] at h
    cases h
  · rw [hdef] at hsome
    have hnm : nm = "a" := by
      have h1 := congrArg (fun o : Option (String × Option Ipv4Addr) =>
        (o.getD ("", none)).1) hsome
      simpa using h1.symm
    subst hnm
    exact hne hbr

/-- C2 (amended): after `remove_bridge(n)` the bridge entry is gone
(`get_bridge(n) = None`), but the stored default pointer is untouched; in
particular, if `n` was the default, `get_default_bridge()` still returns
`Some` naming `n` (with all leading `BRIDGE_NAME_` prefixes of the stored
key stripped) and a `None` IP — the pointer is left dangling. -/
theorem removeBridge_spec (sec : IniSection) (n : String) :
    getBridge (removeBridge sec n) n = none ∧
    iniGet (removeBridge sec n) DEFAULT_BRIDGE_KEY = iniGet sec DEFAULT_BRIDGE_KEY ∧
    (iniGet sec DEFAULT_BRIDGE_KEY = some (BRIDGE_NAME_KEY_PREFIX ++ n) →
      getDefaultBridge (removeBridge sec n) =
        some (trimStartMatches BRIDGE_NAME_KEY_PREFIX (BRIDGE_NAME_KEY_PREFIX ++ n), none)) := by
  have hne : DEFAULT_BRIDGE_KEY ≠ BRIDGE_NAME_KEY_PREFIX ++ n :=
    Ne.symm (bridgeKey_ne_defaultKey n)
  refine ⟨?_, ?_, ?_⟩
  · simp [getBridge, removeBridge, iniGet_iniRemoveKey_self]
  · exact iniGet_iniRemoveKey_ne sec (BRIDGE_NAME_KEY_PREFIX ++ n) DEFAULT_BRIDGE_KEY hne
  · intro h
    have hget : iniGet (iniRemoveKey sec (BRIDGE_NAME_KEY_PREFIX ++ n)) DEFAULT_BRIDGE_KEY =
        some (BRIDGE_NAME_KEY_PREFIX ++ n) := by
      rw [iniGet_iniRemoveKey_ne sec _ _ hne]
      exact h
    simp [getDefaultBridge, removeBridge, hget, iniGet_iniRemoveKey_self]

/-- C2 witness: the amended theorem applied to the concrete one-bridge
registry. -/
theorem removeBridge_spec_witness :
    iniGet c2Registry DEFAULT_BRIDGE_KEY = some (BRIDGE_NAME_KEY_PREFIX ++ "a") ∧
    getDefaultBridge (removeBridge c2Registry "a") =
      some (trimStartMatches BRIDGE_NAME_KEY_PREFIX (BRIDGE_NAME_KEY_PREFIX ++ "a"), none) :=
  ⟨by decide, (removeBridge_spec c2Registry "a").2.2 (by decide)⟩

/-! ### C5 — `set_default_bridge` -/

/-- C5 counterexample: for the bridge named `BRIDGE_NAME_x`,
`set_default_bridge` succeeds, but `get_default_bridge` afterwards reports
the name `x`, because `trim_start_matches` strips the storage prefix
*repeatedly* — so the returned name is not exactly the name that was set. -/
theorem setDefaultBridge_name_counterexample :
    (setDefaultBridge c5Registry "BRIDGE_NAME_x").1 = .ok () ∧
    getDefaultBridge (setDefaultBridge c5Registry "BRIDGE_NAME_x").2 =
      some ("x", some ⟨192, 168, 1, 1⟩) ∧
    ¬ ∃ ip, getDefaultBridge (setDefaultBridge c5Registry "BRIDGE_NAME_x").2 =
        some ("BRIDGE_NAME_x", ip) := by
  have hok : (setDefaultBridge c5Registry "BRIDGE_NAME_x").1 = .ok () := by decide
  have hdef : getDefaultBridge (setDefaultBridge c5Registry "BRIDGE_NAME_x").2 =
      some ("x", some ⟨192, 168, 1, 1⟩) := by decide
  refine ⟨hok, hdef, ?_⟩
  rintro ⟨ip, h⟩
  rw [hdef] at h
  have hx : ("x" : String) = "BRIDGE_NAME_x" := by
    have h1 := congrArg (fun o : Option (String × Option Ipv4Addr) =>
      (o.getD ("", none)).1) h
    simpa using h1
  exact absurd hx (by decide)

/-- C5 (amended): when `set_default_bridge(n)` succeeds,
`get_default_bridge()` returns `Some` whose name is `n` with every leading
`BRIDGE_NAME_` prefix stripped (hence exactly `n` whenever `n` does not
itself start with the storage prefix), paired with the stored bridge
value's parsed IP; and whenever no bridge entry named `n` is visible
(`get_bridge(n) = None`), `set_default_bridge(n)` returns an error. -/
theorem setDefaultBridge_spec (sec : IniSection) (n : String) :
    ((setDefaultBridge sec n).1 = .ok () →
      getDefaultBridge (setDefaultBridge sec n).2 =
        some (trimStartMatches BRIDGE_NAME_KEY_PREFIX (BRIDGE_NAME_KEY_PREFIX ++ n),
          (iniGet sec (BRIDGE_NAME_KEY_PREFIX ++ n)).bind parseIpv4?)) ∧
    (getBridge sec n = none → ∃ e, (setDefaultBridge sec n).1 = .error e) := by
  constructor
  · intro hok
    rw [setDefaultBridge] at hok ⊢
    split_ifs at hok ⊢ with h1 h2 h3 h4
    all_goals
      first
        | (simp at hok; done)
        | (simp only [getDefaultBridge, iniGet_iniSet_self]
           rw [iniGet_iniSet_ne sec DEFAULT_BRIDGE_KEY (BRIDGE_NAME_KEY_PREFIX ++ n) _
             (bridgeKey_ne_defaultKey n)])
  · intro hbr
    have hinone : iniGet sec (BRIDGE_NAME_KEY_PREFIX ++ n) = none := by
      simpa [getBridge] using hbr
    rw [setDefaultBridge]
    split_ifs with h1 h2 h3 h4
    all_goals
      first
        | exact ⟨_, rfl⟩
        | exact absurd hinone (by assumption)

/-- C5 witness: a successful default set on an ordinary bridge name, and a
rejected set for an absent bridge. -/
theorem setDefaultBridge_spec_witness :
    ((setDefaultBridge c5WitnessRegistry "a").1 = .ok () ∧
      getDefaultBridge (setDefaultBridge c5WitnessRegistry "a").2 =
        some (trimStartMatches BRIDGE_NAME_KEY_PREFIX (BRIDGE_NAME_KEY_PREFIX ++ "a"),
          (iniGet c5WitnessRegistry (BRIDGE_NAME_KEY_PREFIX ++ "a")).bind parseIpv4?)) ∧
    (getBridge c5WitnessRegistry "zz" = none ∧
      ∃ e, (setDefaultBridge c5WitnessRegistry "zz").1 = .error e) :=
  ⟨⟨by decide, (setDefaultBridge_spec c5WitnessRegistry "a").1 (by decide)⟩,
    ⟨by decide, (setDefaultBridge_spec c5WitnessRegistry "zz").2 (by decide)⟩⟩

/-! ### C10 — `upsert_bridge` frame conditions -/

/-- C10: a successful `upsert_bridge(n, ip)` changes only the entry for
`n` — every other bridge's `get_bridge` result and the stored default
pointer are unchanged — and a name-validation failure leaves the registry
entirely unchanged. -/
theorem upsertBridge_frame (sec : IniSection) (n : String) (ip : Ipv4Addr) :
    ((upsertBridge sec n ip).1 = .ok () →
      (∀ m, m ≠ n → getBridge (upsertBridge sec n ip).2 m = getBridge sec m) ∧
      iniGet (upsertBridge sec n ip).2 DEFAULT_BRIDGE_KEY =
        iniGet sec DEFAULT_BRIDGE_KEY) ∧
    (∀ e, (upsertBridge sec n ip).1 = .error e → (upsertBridge sec n ip).2 = sec) := by
  constructor
  · intro hok
    rw [upsertBridge] at hok ⊢
    split_ifs at hok ⊢ with h1 h2 h3
    all_goals
      first
        | (simp at hok; done)
        | (refine ⟨fun m hm => ?_, iniGet_iniSet_ne sec _ _ _
              (Ne.symm (bridgeKey_ne_defaultKey n))⟩
           simp only [getBridge]
           rw [iniGet_iniSet_ne sec _ _ _ (fun hk => hm (bridgeKey_inj hk)),
             iniGet_iniSet_ne sec _ _ _ (Ne.symm (bridgeKey_ne_defaultKey n))])
  · intro e he
    rw [upsertBridge] at he ⊢
    split_ifs at he ⊢ with h1 h2 h3
    all_goals
      first
        | rfl
        | (simp at he; done)

/-- C10 witness: the frame theorem applied to a concrete registry — a
successful upsert of `a` leaves bridge `b` and the default pointer alone,
and an invalid (empty) name leaves the registry unchanged. -/
theorem upsertBridge_frame_witness :
    ((upsertBridge c10Registry "a" ⟨192, 168, 1, 7⟩).1 = .ok () ∧
      getBridge (upsertBridge c10Registry "a" ⟨192, 168, 1, 7⟩).2 "b" =
        getBridge c10Registry "b" ∧
      iniGet (upsertBridge c10Registry "a" ⟨192, 168, 1, 7⟩).2 DEFAULT_BRIDGE_KEY =
        iniGet c10Registry DEFAULT_BRIDGE_KEY) ∧
    ((upsertBridge c10Registry "" ⟨192, 168, 1, 7⟩).1 =
        .error .DeviceNameCannotBeEmpty ∧
      (upsertBridge c10Registry "" ⟨192, 168, 1, 7⟩).2 = c10Registry) :=
  ⟨⟨by decide,
    ((upsertBridge_frame c10Registry "a" ⟨192, 168, 1, 7⟩).1 (by decide)).1 "b" (by decide),
    ((upsertBridge_frame c10Registry "a" ⟨192, 168, 1, 7⟩).1 (by decide)).2⟩,
   ⟨by decide,
    (upsertBridge_frame c10Registry "" ⟨192, 168, 1, 7⟩).2 .DeviceNameCannotBeEmpty (by decide)⟩⟩

/-! ### C7 — parameter index resolution -/

theorem wellKnownParameterLookup_eq_some {s : String} {i : Nat}
    (h : wellKnownParameterLookup s = some i) :
    ∃ p ∈ wellKnownParameterTable, p.1 = s ∧ p.2 = i := by
  unfold wellKnownParameterLookup at h
  cases hfind : wellKnownParameterTable.find? (fun p => p.1 == s) with
  | none => rw [hfind] at h; cases h
  | some p =>
    rw [hfind] at h
    have hmem := List.mem_of_find?_eq_some hfind
    have hbeq := List.find?_some hfind
    have hs : p.1 = s := by simpa using hbeq
    exact ⟨p, hmem, hs, by simpa using h⟩

/-- Every well-known parameter name fails `str::parse::<usize>`. -/
theorem parseUsize?_of_wellKnown {s : String} {i : Nat}
    (h : wellKnownParameterLookup s = some i) : parseUsize? s = none := by
  obtain ⟨p, hmem, hps, _⟩ := wellKnownParameterLookup_eq_some h
  have hall : wellKnownParameterTable.all (fun q => (parseUsize? q.1).isNone) = true := by
    decide
  have hnone := List.all_eq_true.mp hall p hmem
  rw [hps] at hnone
  exact Option.isNone_iff_eq_none.mp hnone

/-- Every index the well-known table can produce is below 512. -/
theorem wellKnownParameterLookup_lt {s : String} {i : Nat}
    (h : wellKnownParameterLookup s = some i) : i < 512 := by
  obtain ⟨p, hmem, _, hpi⟩ := wellKnownParameterLookup_eq_some h
  have hall : wellKnownParameterTable.all (fun q => decide (q.2 < 512)) = true := by decide
  have := List.all_eq_true.mp hall p hmem
  simp only [decide_eq_true_eq] at this
  omega

/-- Any index `index_from_parameter_name` produces is below 512. -/
theorem index_from_parameter_name_lt {s : String} {i : Nat}
    (h : index_from_parameter_name s = some i) : i < 512 := by
  cases hp : parseUsize? s with
  | some n =>
    simp only [index_from_parameter_name, hp] at h
    by_cases hn : n < 512
    · rw [if_pos hn] at h
      cases h
      exact hn
    · rw [if_neg hn] at h
      exact wellKnownParameterLookup_lt h
  | none =>
    simp only [index_from_parameter_name, hp] at h
    exact wellKnownParameterLookup_lt h

/-- Every well-known name (and synonym) resolves to its table index. -/
theorem index_from_parameter_name_wellKnown :
    ∀ p ∈ wellKnownParameterTable, index_from_parameter_name p.1 = some p.2 := by
  have hall : wellKnownParameterTable.all
      (fun p => index_from_parameter_name p.1 == some p.2) = true := by decide
  intro p hp
  have := List.all_eq_true.mp hall p hp
  simpa using this

/-- C7 counterexample: `index_from_parameter_name` is not injective on the
well-known names and their synonyms — the distinct synonyms `nand-mode` and
`nand_mode` both resolve to index 2. -/
theorem index_from_parameter_name_injective_counterexample :
    index_from_parameter_name "nand-mode" = some 2 ∧
    index_from_parameter_name "nand_mode" = some 2 ∧
    ("nand-mode" : String) ≠ "nand_mode" ∧
    ¬ (∀ s t, s ∈ wellKnownParameterTable.map Prod.fst →
        t ∈ wellKnownParameterTable.map Prod.fst →
        index_from_parameter_name s = index_from_parameter_name t → s = t) := by
  refine ⟨by decide, by decide, by decide, fun h => ?_⟩
  have h1 := h "nand-mode" "nand_mode" (by decide) (by decide) (by decide)
  exact absurd h1 (by decide)

/-- C7 (amended): parameter name resolution is a partial function into
`0..=511`: a decimal string denoting a value below 512 resolves to that
value, a decimal string at or above 512 resolves to nothing, a non-numeric
string outside the well-known table resolves to nothing, the four
well-known parameters resolve as `nand_mode → 2`, `sdk_major → 3`,
`sdk_minor → 4`, `sdk_misc → 5`, every synonym resolves to its parameter's
index, and the resolution is injective *on synonym classes*: two well-known
names share an index exactly when they name the same parameter (it is not
injective on the name strings themselves, as the counterexample records). -/
theorem index_from_parameter_name_spec :
    (∀ s n, parseUsize? s = some n → n < 512 → index_from_parameter_name s = some n) ∧
    (∀ s n, parseUsize? s = some n → 512 ≤ n → index_from_parameter_name s = none) ∧
    (∀ s, parseUsize? s = none → wellKnownParameterLookup s = none →
      index_from_parameter_name s = none) ∧
    index_from_parameter_name "nand_mode" = some 2 ∧
    index_from_parameter_name "sdk_major" = some 3 ∧
    index_from_parameter_name "sdk_minor" = some 4 ∧
    index_from_parameter_name "sdk_misc" = some 5 ∧
    (∀ p ∈ wellKnownParameterTable, index_from_parameter_name p.1 = some p.2) ∧
    (∀ p q, p ∈ wellKnownParameterTable → q ∈ wellKnownParameterTable →
      (index_from_parameter_name p.1 = index_from_parameter_name q.1 ↔ p.2 = q.2)) := by
  refine ⟨?_, ?_, ?_, by decide, by decide, by decide, by decide,
    index_from_parameter_name_wellKnown, ?_⟩
  · intro s n hp hn
    simp only [index_from_parameter_name, hp, if_pos hn]
  · intro s n hp hn
    simp only [index_from_parameter_name, hp, if_neg (show ¬ n < 512 by omega)]
    cases hl : wellKnownParameterLookup s with
    | none => rfl
    | some i => exact absurd hp (by rw [parseUsize?_of_wellKnown hl]; simp)
  · intro s hp hl
    simp only [index_from_parameter_name, hp, hl]
  · intro p q hpmem hqmem
    rw [index_from_parameter_name_wellKnown p hpmem,
      index_from_parameter_name_wellKnown q hqmem]
    simp

/-- C7 witness: the resolution theorem at concrete inputs — the decimal
string `"7"`, the out-of-range string `"600"`, and an unknown name. -/
theorem index_from_parameter_name_spec_witness :
    (parseUsize? "7" = some 7 ∧ index_from_parameter_name "7" = some 7) ∧
    (parseUsize? "600" = some 600 ∧ index_from_parameter_name "600" = none) ∧
    (parseUsize? "mystery" = none ∧ wellKnownParameterLookup "mystery" = none ∧
      index_from_parameter_name "mystery" = none) :=
  ⟨⟨by decide, index_from_parameter_name_spec.1 "7" 7 (by decide) (by decide)⟩,
   ⟨by decide, index_from_parameter_name_spec.2.1 "600" 600 (by decide) (by decide)⟩,
   ⟨by decide, by decide,
     index_from_parameter_name_spec.2.2.1 "mystery" (by decide) (by decide)⟩⟩

/-! ### C6 — identity announcement decoder rejections -/

/-- A packet that satisfies every check of the detailed announcement path
is byte-for-byte the encoded detailed announcement. -/
theorem announcementPacket_eq_detailed (p : List Nat)
    (hlen : p.length ≤ 33)
    (hcmd : p.getD 0 0 = 0x2A)
    (hmsg : (p.drop 1).take 23 = ANNOUNCEMENT_MESSAGE_BYTES)
    (hterm : p.getD 24 0 = 0)
    (henum : p.drop 25 = DETAIL_FLAG_TAIL_BYTES) :
    p = encodeMionIdentityAnnouncement ⟨true⟩ := by
  have hlen33 : p.length = 33 := by
    have hd := congrArg List.length henum
    simp only [List.length_drop] at hd
    have h8 : DETAIL_FLAG_TAIL_BYTES.length = 8 := by decide
    rw [h8] at hd
    omega
  cases p with
  | nil => simp at hlen33
  | cons a t =>
    have htlen : t.length = 32 := by simpa using hlen33
    have ha : a = 42 := by simpa using hcmd
    have hmsg' : t.take 23 = ANNOUNCEMENT_MESSAGE_BYTES := by simpa using hmsg
    obtain ⟨b, v, huv⟩ : ∃ b v, t.drop 23 = b :: v := by
      cases hcase : t.drop 23 with
      | nil =>
        have := congrArg List.length hcase
        simp only [List.length_drop, List.length_nil] at this
        omega
      | cons b v => exact ⟨b, v, rfl⟩
    have hv : v = DETAIL_FLAG_TAIL_BYTES := by
      have hdrop : t.drop 24 = DETAIL_FLAG_TAIL_BYTES := by simpa using henum
      have : t.drop 24 = v := by
        have h1 : (t.drop 23).drop 1 = t.drop 24 := by
          rw [List.drop_drop]
        rw [huv] at h1
        simpa using h1.symm
      rw [this] at hdrop
      exact hdrop
    have hb : b = 0 := by
      have h23 : t[23]? = some b := by
        have h0 := congrArg (fun l => l[0]?) huv
        simpa [List.getElem?_drop] using h0
      have hterm' : t.getD 23 0 = 0 := by simpa using hterm
      rw [List.getD_eq_getElem?_getD, h23] at hterm'
      simpa using hterm'
    have ht : t = ANNOUNCEMENT_MESSAGE_BYTES ++ 0 :: DETAIL_FLAG_TAIL_BYTES := by
      conv_lhs => rw [← List.take_append_drop 23 t]
      rw [hmsg', huv, hb, hv]
    rw [ha, ht]
    rfl

/-- C6 counterexample: a 26-byte input — a valid 25-byte announcement plus
one stray byte — is rejected, but with the field-encoded-incorrectly error,
not the unexpected-trailer error the claim names for bytes after 25. -/
theorem decodeMionIdentityAnnouncement_trailer_counterexample :
    c6TrailingPacket.length = 26 ∧
    decodeMionIdentityAnnouncement c6TrailingPacket =
      .error (.FieldEncodedIncorrectly "MionIdentityAnnouncement" "buff"
        "Only the static string `enumV1` followed by two NUL Terminators is allowed after `MULTI_I/O_NETWORK_BOARD`.") ∧
    isUnexpectedTrailerError (decodeMionIdentityAnnouncement c6TrailingPacket) = false :=
  ⟨by decide, by decide, by decide⟩

/-- C6 (amended): inputs shorter than 25 bytes fail with "not enough data";
inputs longer than 33 bytes are rejected as an unexpected trailer naming
the bytes after 33; *every* input longer than 25 bytes that is not the
exact 33-byte detailed form is rejected; but only the bytes after 33 are
ever blamed as a trailer — for lengths 26..=33 the rejection is never the
unexpected-trailer error (it is the unknown-command or
field-encoded-incorrectly variant, depending on which check fails), and a
valid 25-byte announcement followed by one to eight extra bytes that are
not exactly `enumV1` plus two NULs is rejected with the
field-encoded-incorrectly complaint about the `enumV1` tail. -/
theorem decodeMionIdentityAnnouncement_rejections (packet : List Nat) :
    (packet.length < 25 →
      decodeMionIdentityAnnouncement packet =
        .error (.NotEnoughData "MionIdentityAnnouncement" 25 packet.length packet)) ∧
    (33 < packet.length →
      decodeMionIdentityAnnouncement packet =
        .error (.UnexpectedTrailer "MionIdentityAnnouncement" (packet.drop 33))) ∧
    (25 < packet.length → packet ≠ encodeMionIdentityAnnouncement ⟨true⟩ →
      ∃ e, decodeMionIdentityAnnouncement packet = .error e) ∧
    (25 < packet.length → packet.length ≤ 33 →
      isUnexpectedTrailerError (decodeMionIdentityAnnouncement packet) = false) ∧
    (∀ tail : List Nat, tail ≠ [] → tail.length ≤ 8 → tail ≠ DETAIL_FLAG_TAIL_BYTES →
      decodeMionIdentityAnnouncement (encodeMionIdentityAnnouncement ⟨false⟩ ++ tail) =
        .error (.FieldEncodedIncorrectly "MionIdentityAnnouncement" "buff"
          "Only the static string `enumV1` followed by two NUL Terminators is allowed after `MULTI_I/O_NETWORK_BOARD`.")) := by
  refine ⟨?_, ?_, ?_, ?_, ?_⟩
  · intro h
    rw [decodeMionIdentityAnnouncement, if_pos h]
  · intro h
    rw [decodeMionIdentityAnnouncement, if_neg (by omega), if_pos h]
  · intro hgt hne
    rw [decodeMionIdentityAnnouncement, if_neg (by omega)]
    by_cases h33 : 33 < packet.length
    · rw [if_pos h33]
      exact ⟨_, rfl⟩
    · rw [if_neg h33]
      by_cases hcmd : packet.getD 0 0 ≠ 0x2A
      · rw [if_pos hcmd]
        exact ⟨_, rfl⟩
      · rw [if_neg hcmd]
        by_cases hmsg : (packet.drop 1).take 23 ≠ ANNOUNCEMENT_MESSAGE_BYTES
        · rw [if_pos hmsg]
          exact ⟨_, rfl⟩
        · rw [if_neg hmsg]
          by_cases hterm : packet.getD 24 0 ≠ 0
          · rw [if_pos hterm]
            exact ⟨_, rfl⟩
          · rw [if_neg hterm]
            by_cases henum : 25 < packet.length ∧ packet.drop 25 ≠ DETAIL_FLAG_TAIL_BYTES
            · rw [if_pos henum]
              exact ⟨_, rfl⟩
            · exfalso
              apply hne
              have hdrop : packet.drop 25 = DETAIL_FLAG_TAIL_BYTES := by
                by_contra hd
                exact henum ⟨hgt, hd⟩
              exact announcementPacket_eq_detailed packet (by omega) (not_not.mp hcmd)
                (not_not.mp hmsg) (not_not.mp hterm) hdrop
  · intro hgt hle
    rw [decodeMionIdentityAnnouncement, if_neg (by omega), if_neg (by omega)]
    by_cases hcmd : packet.getD 0 0 ≠ 0x2A
    · rw [if_pos hcmd]
      rfl
    · rw [if_neg hcmd]
      by_cases hmsg : (packet.drop 1).take 23 ≠ ANNOUNCEMENT_MESSAGE_BYTES
      · rw [if_pos hmsg]
        rfl
      · rw [if_neg hmsg]
        by_cases hterm : packet.getD 24 0 ≠ 0
        · rw [if_pos hterm]
          rfl
        · rw [if_neg hterm]
          by_cases henum : 25 < packet.length ∧ packet.drop 25 ≠ DETAIL_FLAG_TAIL_BYTES
          · rw [if_pos henum]
            rfl
          · rw [if_neg henum]
            rfl
  · intro tail h1 h2 h3
    have hpos : 0 < tail.length := List.length_pos.mpr h1
    have hlen : (encodeMionIdentityAnnouncement ⟨false⟩ ++ tail).length = 25 + tail.length := by
      rw [List.length_append]
      rfl
    have hg0 : (encodeMionIdentityAnnouncement ⟨false⟩ ++ tail).getD 0 0 = 0x2A := rfl
    have hm : (((encodeMionIdentityAnnouncement ⟨false⟩ ++ tail).drop 1).take 23) =
        ANNOUNCEMENT_MESSAGE_BYTES := rfl
    have ht : (encodeMionIdentityAnnouncement ⟨false⟩ ++ tail).getD 24 0 = 0 := rfl
    have hd : (encodeMionIdentityAnnouncement ⟨false⟩ ++ tail).drop 25 = tail := rfl
    rw [decodeMionIdentityAnnouncement,
      if_neg (by rw [hlen]; omega),
      if_neg (by rw [hlen]; omega),
      if_neg (fun h => h hg0),
      if_neg (fun h => h hm),
      if_neg (fun h => h ht),
      if_pos ⟨by rw [hlen]; omega, by rw [hd]; exact h3⟩]

/-- C6 witness: the rejection theorem at concrete inputs of length 3
(too short), length 40 (trailer past 33), and the 26-byte stray-NUL
packet, which also instantiates the never-a-trailer band and the
bad-tail conjuncts. -/
theorem decodeMionIdentityAnnouncement_rejections_witness :
    ((List.replicate 3 0).length < 25 ∧
      decodeMionIdentityAnnouncement (List.replicate 3 0) =
        .error (.NotEnoughData "MionIdentityAnnouncement" 25
          (List.replicate 3 0).length (List.replicate 3 0))) ∧
    (33 < (List.replicate 40 7).length ∧
      decodeMionIdentityAnnouncement (List.replicate 40 7) =
        .error (.UnexpectedTrailer "MionIdentityAnnouncement"
          ((List.replicate 40 7).drop 33))) ∧
    (25 < c6TrailingPacket.length ∧
      c6TrailingPacket ≠ encodeMionIdentityAnnouncement ⟨true⟩ ∧
      ∃ e, decodeMionIdentityAnnouncement c6TrailingPacket = .error e) ∧
    (25 < c6TrailingPacket.length ∧ c6TrailingPacket.length ≤ 33 ∧
      isUnexpectedTrailerError (decodeMionIdentityAnnouncement c6TrailingPacket) = false) ∧
    (([0] : List Nat) ≠ [] ∧ ([0] : List Nat).length ≤ 8 ∧
      ([0] : List Nat) ≠ DETAIL_FLAG_TAIL_BYTES ∧
      decodeMionIdentityAnnouncement (encodeMionIdentityAnnouncement ⟨false⟩ ++ [0]) =
        .error (.FieldEncodedIncorrectly "MionIdentityAnnouncement" "buff"
          "Only the static string `enumV1` followed by two NUL Terminators is allowed after `MULTI_I/O_NETWORK_BOARD`.")) :=
  ⟨⟨by decide, (decodeMionIdentityAnnouncement_rejections (List.replicate 3 0)).1 (by decide)⟩,
   ⟨by decide, (decodeMionIdentityAnnouncement_rejections (List.replicate 40 7)).2.1 (by decide)⟩,
   ⟨by decide, by decide,
     (decodeMionIdentityAnnouncement_rejections c6TrailingPacket).2.2.1 (by decide) (by decide)⟩,
   ⟨by decide, by decide,
     (decodeMionIdentityAnnouncement_rejections c6TrailingPacket).2.2.2.1 (by decide) (by decide)⟩,
   ⟨by decide, by decide, by decide,
     (decodeMionIdentityAnnouncement_rejections c6TrailingPacket).2.2.2.2 [0]
       (by decide) (by decide) (by decide)⟩⟩

/-! ### C1 — the real 272-byte detailed identity reply -/

/-- C1 counterexample: on the captured 272-byte reply the decoder's FPGA
string is `13052071` (bytes 8..12 reversed as `{:02x}`), not `01500e00`,
and its firmware string is `0.0.14.80` (from bytes 12..16), not
`0.17.113.32`; the claim's FPGA/firmware renderings do not hold. -/
theorem realLifeIdentity_claim_counterexample :
    ¬ ((decodeMionIdentity localhostIp onAnnouncementPacket).toOption.map
        MionIdentity.detailedFpgaVersion = some "01500e00" ∧
      (decodeMionIdentity localhostIp onAnnouncementPacket).toOption.map
        MionIdentity.firmwareVersionString = some "0.17.113.32") := by
  decide

/-- C1 (amended): the decoder accepts the captured 272-byte reply, and the
decoded identity renders name `00-25-5C-BA-5A-00`,
MAC `00:25:5C:BA:5A:00`, detailed FPGA version `13052071`, firmware
version `0.0.14.80`, SDK version `2.12.13`, boot type PCFS, and cafe power
on. -/
theorem realLifeIdentity_decodes :
    (decodeMionIdentity localhostIp onAnnouncementPacket).toOption.map
      MionIdentity.nameString = some "00-25-5C-BA-5A-00" ∧
    (decodeMionIdentity localhostIp onAnnouncementPacket).toOption.map
      (fun v => v.mac.display) = some "00:25:5C:BA:5A:00" ∧
    (decodeMionIdentity localhostIp onAnnouncementPacket).toOption.map
      MionIdentity.detailedFpgaVersion = some "13052071" ∧
    (decodeMionIdentity localhostIp onAnnouncementPacket).toOption.map
      MionIdentity.firmwareVersionString = some "0.0.14.80" ∧
    (decodeMionIdentity localhostIp onAnnouncementPacket).toOption.bind
      MionIdentity.detailedSdkVersion = some "2.12.13" ∧
    (decodeMionIdentity localhostIp onAnnouncementPacket).toOption.bind
      MionIdentity.detailedBootType = some .PCFS ∧
    (decodeMionIdentity localhostIp onAnnouncementPacket).toOption.bind
      MionIdentity.detailedIsCafeOn = some true := by
  refine ⟨by decide, by decide, by decide, by decide, by decide, by decide, by decide⟩

/-! ### C3 — identity reply round trip -/

/-- C3 counterexample: a well-formed identity carrying a 239-byte detailed
block does not survive `decode ∘ encode` — the encoder never writes the
detailed block, so decoding its output yields the identity without the
block. -/
theorem identityRoundTrip_detailed_counterexample :
    MionIdentityWF c3DetailedIdentity ∧
    decodeMionIdentity c3DetailedIdentity.ip_address
      (encodeMionIdentity c3DetailedIdentity) ≠ .ok c3DetailedIdentity := by
  exact ⟨by decide, by decide⟩

/-- C3 (amended): for every well-formed identity `x`, decoding the encoding
of `x` (with `x`'s source IP attached) succeeds and yields `x` with its
detailed block *removed*: the encoder drops the detailed block, so
`decode (encode x) = x` holds exactly for identities without one, and
never preserves a present detailed block. -/
theorem identityRoundTrip (v : MionIdentity) (h : MionIdentityWF v) :
    decodeMionIdentity v.ip_address (encodeMionIdentity v) =
      .ok { v with detailed_all := none } := by
  obtain ⟨hne, hlen, hascii, -⟩ := h
  have hpos : 0 < v.name.length := List.length_pos.mpr hne
  have hlb : (if v.name.length ≤ 255 then v.name.length else 255) = v.name.length :=
    if_pos hlen
  simp only [encodeMionIdentity, decodeMionIdentity, hlb]
  rw [if_neg (by simp [List.isEmpty_iff, hne])]
  rw [if_neg (by simp)]
  rw [if_neg (by omega)]
  rw [if_neg (by omega)]
  rw [if_neg (by omega)]
  rw [if_neg (by simp)]
  rw [List.take_length]
  rw [if_neg (by simp [hascii])]
  rw [if_neg (by omega)]

/-- C3 witness: the round-trip theorem applied to the concrete detailed
identity — decoding its encoding yields the identity stripped of its
detailed block. -/
theorem identityRoundTrip_witness :
    MionIdentityWF c3DetailedIdentity ∧
    decodeMionIdentity c3DetailedIdentity.ip_address
      (encodeMionIdentity c3DetailedIdentity) =
      .ok { c3DetailedIdentity with detailed_all := none } :=
  ⟨by decide, identityRoundTrip c3DetailedIdentity (by decide)⟩

/-! ### C4 — read-modify-write parameter mutation -/

/-- The location a well-formed mutation resolves to (total under
`MutationWF`). -/
def resolveD (m : ParameterLocationSpecification × Nat) : Nat :=
  match resolveLocation m.1 with
  | .ok loc => loc
  | .error _ => 0

theorem resolveLocation_wf {m : ParameterLocationSpecification × Nat}
    (h : MutationWF m) : resolveLocation m.1 = .ok (resolveD m) ∧ resolveD m < 512 := by
  obtain ⟨spec, val⟩ := m
  cases spec with
  | Index idx => exact ⟨rfl, h⟩
  | NameLike name =>
    cases hi : index_from_parameter_name name with
    | none =>
      exfalso
      have hsome : (index_from_parameter_name name).isSome = true := h
      rw [hi] at hsome
      cases hsome
    | some idx =>
      have hd : resolveD (ParameterLocationSpecification.NameLike name, val) = idx := by
        simp [resolveD, resolveLocation, hi]
      rw [hd]
      exact ⟨by simp [resolveLocation, hi], index_from_parameter_name_lt hi⟩

theorem assocLookup_assocInsert (map : List (Nat × Nat)) (k v k' : Nat) :
    assocLookup (assocInsert map k v) k' =
      if k = k' then some v else assocLookup map k' := by
  induction map with
  | nil => rfl
  | cons p rest ih =>
    obtain ⟨pk, pv⟩ := p
    by_cases hpk : pk = k
    · subst hpk
      simp only [assocInsert, if_pos rfl, assocLookup]
      by_cases h : pk = k'
      · rw [if_pos h, if_pos h]
      · rw [if_neg h, if_neg h, if_neg h]
    · simp only [assocInsert, if_neg hpk, assocLookup, ih]
      by_cases h2 : pk = k'
      · by_cases h1 : k = k'
        · exact absurd (h2.trans h1.symm) hpk
        · rw [if_pos h2, if_neg h1, if_pos h2]
      · by_cases h1 : k = k'
        · rw [if_neg h2, if_pos h1, if_pos h1]
        · rw [if_neg h2, if_neg h1, if_neg h1, if_neg h2]

/-- The parameter block left by the mutation loop. -/
def foldNewParameters (muts : List (ParameterLocationSpecification × Nat))
    (params : List Nat) : List Nat :=
  muts.foldl (fun p m => p.set (resolveD m) m.2) params

/-- The old-values map left by the mutation loop. -/
def foldOldValues (dump : List Nat) (muts : List (ParameterLocationSpecification × Nat))
    (map : List (Nat × Nat)) : List (Nat × Nat) :=
  muts.foldl (fun mp m => assocInsert mp (resolveD m) (dump.getD (resolveD m) 0)) map

theorem applyParameterMutations_go_eq (dump : List Nat) (hd : dump.length = 512) :
    ∀ (muts : List (ParameterLocationSpecification × Nat)) (params : List Nat)
      (map : List (Nat × Nat)), (∀ m ∈ muts, MutationWF m) →
      applyParameterMutations.go dump muts params map =
        .ok (foldNewParameters muts params, foldOldValues dump muts map) := by
  intro muts
  induction muts with
  | nil => intro params map _; rfl
  | cons m rest ih =>
    intro params map hwf
    obtain ⟨hres, hlt⟩ := resolveLocation_wf (hwf m (by simp))
    obtain ⟨orig, horig⟩ : ∃ orig, dump[resolveD m]? = some orig := by
      cases hcase : dump[resolveD m]? with
      | none =>
        rw [List.getElem?_eq_none_iff] at hcase
        omega
      | some orig => exact ⟨orig, rfl⟩
    have hgd : dump.getD (resolveD m) 0 = orig := by
      rw [List.getD_eq_getElem?_getD]
      simp [horig]
    simp only [applyParameterMutations.go, hres, horig]
    rw [ih _ _ (fun m' hm' => hwf m' (by simp [hm']))]
    simp only [foldNewParameters, foldOldValues, List.foldl_cons, hgd]

theorem foldNewParameters_length (muts : List (ParameterLocationSpecification × Nat)) :
    ∀ params : List Nat, (foldNewParameters muts params).length = params.length := by
  induction muts with
  | nil => intro params; rfl
  | cons m rest ih =>
    intro params
    rw [foldNewParameters, List.foldl_cons, ← foldNewParameters, ih, List.length_set]

theorem foldNewParameters_get_untouched
    (muts : List (ParameterLocationSpecification × Nat)) (i : Nat)
    (h : ∀ m ∈ muts, resolveD m ≠ i) :
    ∀ params : List Nat, (foldNewParameters muts params)[i]? = params[i]? := by
  induction muts with
  | nil => intro params; rfl
  | cons m rest ih =>
    intro params
    rw [foldNewParameters, List.foldl_cons, ← foldNewParameters,
      ih (fun m' hm' => h m' (by simp [hm']))]
    exact List.getElem?_set_ne (h m (by simp))

theorem lastMutationValue_none_untouched
    (muts : List (ParameterLocationSpecification × Nat)) (i : Nat)
    (hwf : ∀ m ∈ muts, MutationWF m) (h : lastMutationValue muts i = none) :
    ∀ m ∈ muts, resolveD m ≠ i := by
  induction muts with
  | nil => intro m hm; cases hm
  | cons m rest ih =>
    intro m' hm'
    rw [lastMutationValue] at h
    cases hrest : lastMutationValue rest i with
    | some w => rw [hrest] at h; simp at h
    | none =>
      rw [hrest] at h
      rcases List.mem_cons.mp hm' with rfl | hmem
      · obtain ⟨hres, -⟩ := resolveLocation_wf (hwf m' (by simp))
        simp only [hres] at h
        intro hcontra
        rw [if_pos hcontra] at h
        cases h
      · exact ih (fun q hq => hwf q (by simp [hq])) hrest m' hmem

theorem foldNewParameters_get_last
    (muts : List (ParameterLocationSpecification × Nat)) (i v : Nat)
    (hwf : ∀ m ∈ muts, MutationWF m) (h : lastMutationValue muts i = some v) :
    ∀ params : List Nat, i < params.length →
      (foldNewParameters muts params)[i]? = some v := by
  induction muts with
  | nil => intro params _; cases h
  | cons m rest ih =>
    intro params hi
    rw [foldNewParameters, List.foldl_cons, ← foldNewParameters]
    rw [lastMutationValue] at h
    cases hrest : lastMutationValue rest i with
    | some w =>
      rw [hrest] at h
      simp only [] at h
      cases h
      exact ih (fun q hq => hwf q (by simp [hq])) hrest _ (by rw [List.length_set]; exact hi)
    | none =>
      rw [hrest] at h
      obtain ⟨hres, -⟩ := resolveLocation_wf (hwf m (by simp))
      simp only [hres] at h
      by_cases hloc : resolveD m = i
      · rw [if_pos hloc] at h
        cases h
        rw [foldNewParameters_get_untouched rest i
          (lastMutationValue_none_untouched rest i (fun q hq => hwf q (by simp [hq])) hrest)]
        rw [hloc]
        exact List.getElem?_set_self hi
      · rw [if_neg hloc] at h
        cases h

theorem lastMutationValue_some_mem
    {muts : List (ParameterLocationSpecification × Nat)} {i v : Nat}
    (h : lastMutationValue muts i = some v) : ∃ m ∈ muts, resolveD m = i := by
  induction muts generalizing v with
  | nil => cases h
  | cons m rest ih =>
    rw [lastMutationValue] at h
    cases hrest : lastMutationValue rest i with
    | some w =>
      obtain ⟨m', hm', hr⟩ := ih hrest
      exact ⟨m', by simp [hm'], hr⟩
    | none =>
      rw [hrest] at h
      cases hres : resolveLocation m.1 with
      | error e =>
        simp only [hres] at h
        cases h
      | ok loc =>
        simp only [hres] at h
        by_cases hl : loc = i
        · refine ⟨m, by simp, ?_⟩
          simp [resolveD, hres, hl]
        · rw [if_neg hl] at h
          cases h

theorem foldOldValues_lookup_stable (dump : List Nat) (hd : dump.length = 512)
    (muts : List (ParameterLocationSpecification × Nat)) (k : Nat)
    (hwf : ∀ m ∈ muts, MutationWF m) :
    ∀ map : List (Nat × Nat), assocLookup map k = dump[k]? →
      assocLookup (foldOldValues dump muts map) k = dump[k]? := by
  induction muts with
  | nil => intro map hmap; exact hmap
  | cons m rest ih =>
    intro map hmap
    rw [foldOldValues, List.foldl_cons, ← foldOldValues]
    apply ih (fun q hq => hwf q (by simp [hq]))
    rw [assocLookup_assocInsert]
    by_cases hk : resolveD m = k
    · rw [if_pos hk]
      obtain ⟨-, hlt⟩ := resolveLocation_wf (hwf m (by simp))
      obtain ⟨orig, horig⟩ : ∃ orig, dump[resolveD m]? = some orig := by
        cases hcase : dump[resolveD m]? with
        | none => rw [List.getElem?_eq_none_iff] at hcase; omega
        | some orig => exact ⟨orig, rfl⟩
      have hgd : dump.getD (resolveD m) 0 = orig := by
        rw [List.getD_eq_getElem?_getD]
        simp [horig]
      rw [hgd, ← hk, horig]
    · rw [if_neg hk]
      exact hmap

theorem foldOldValues_lookup_resolved (dump : List Nat) (hd : dump.length = 512)
    (muts : List (ParameterLocationSpecification × Nat))
    (hwf : ∀ m ∈ muts, MutationWF m) :
    ∀ map : List (Nat × Nat), ∀ m ∈ muts,
      assocLookup (foldOldValues dump muts map) (resolveD m) = dump[resolveD m]? := by
  induction muts with
  | nil => intro map m hm; cases hm
  | cons m rest ih =>
    intro map m' hm'
    rw [foldOldValues, List.foldl_cons, ← foldOldValues]
    rcases List.mem_cons.mp hm' with rfl | hmem
    · apply foldOldValues_lookup_stable dump hd rest (resolveD m')
        (fun q hq => hwf q (by simp [hq]))
      rw [assocLookup_assocInsert, if_pos rfl]
      obtain ⟨-, hlt⟩ := resolveLocation_wf (hwf m' (by simp))
      obtain ⟨orig, horig⟩ : ∃ orig, dump[resolveD m']? = some orig := by
        cases hcase : dump[resolveD m']? with
        | none => rw [List.getElem?_eq_none_iff] at hcase; omega
        | some orig => exact ⟨orig, rfl⟩
      have hgd : dump.getD (resolveD m') 0 = orig := by
        rw [List.getD_eq_getElem?_getD]
        simp [horig]
      rw [hgd, horig]
    · exact ih (fun q hq => hwf q (by simp [hq])) _ m' hmem

/-- C4: the parameter set operation is read-modify-write.  The range check
of the `Index` constructor accepts exactly `0..=511` and errors otherwise,
and for any 512-byte dumped block and any list of constructor-produced
mutations, the mutation loop succeeds without any out-of-bounds access: the
written block is the dumped block with exactly the mutated bytes replaced
(the last mutation of a location wins, untouched indices keep the dump's
bytes), and the old-values map holds, for every resolved location, the byte
the dump held there. -/
theorem setParameters_rmw :
    (∀ value : Nat, value < 512 →
      locationSpecificationFromU16 value = .ok (.Index value)) ∧
    (∀ value : Nat, 512 ≤ value →
      locationSpecificationFromU16 value = .error (.MIONParameterNotInRage value)) ∧
    (∀ (dump : List Nat) (muts : List (ParameterLocationSpecification × Nat)),
      dump.length = 512 → (∀ m ∈ muts, MutationWF m) →
      ∃ out, applyParameterMutations dump muts = .ok out ∧
        out.1.length = 512 ∧
        (∀ i, (∀ m ∈ muts, resolveD m ≠ i) → out.1[i]? = dump[i]?) ∧
        (∀ i v, lastMutationValue muts i = some v → out.1[i]? = some v) ∧
        (∀ m ∈ muts, assocLookup out.2 (resolveD m) = dump[resolveD m]?)) := by
  refine ⟨?_, ?_, ?_⟩
  · intro value h
    rw [locationSpecificationFromU16, if_pos h]
  · intro value h
    rw [locationSpecificationFromU16, if_neg (by omega)]
  · intro dump muts hd hwf
    refine ⟨(foldNewParameters muts dump, foldOldValues dump muts []), ?_, ?_, ?_, ?_, ?_⟩
    · rw [applyParameterMutations, applyParameterMutations_go_eq dump hd muts dump [] hwf]
    · rw [foldNewParameters_length]
      exact hd
    · intro i hi
      exact foldNewParameters_get_untouched muts i hi dump
    · intro i v hv
      have hlt : i < 512 := by
        obtain ⟨m, hm, hres⟩ := lastMutationValue_some_mem hv
        obtain ⟨-, h2⟩ := resolveLocation_wf (hwf m hm)
        omega
      exact foldNewParameters_get_last muts i v hwf hv dump (by omega)
    · intro m hm
      exact foldOldValues_lookup_resolved dump hd muts hwf [] m hm

/-- C4 witness: the read-modify-write theorem applied to the all-zero
512-byte dump and two concrete mutations (`nand_mode := 7`, index
`3 := 9`), plus both sides of the `Index` range check. -/
theorem setParameters_rmw_witness :
    (3 < 512 ∧ locationSpecificationFromU16 3 = .ok (.Index 3)) ∧
    (512 ≤ 600 ∧ locationSpecificationFromU16 600 =
      .error (.MIONParameterNotInRage 600)) ∧
    (zeroDump.length = 512 ∧ (∀ m ∈ c4WitnessMutations, MutationWF m) ∧
      ∃ out, applyParameterMutations zeroDump c4WitnessMutations = .ok out ∧
        out.1.length = 512 ∧
        (∀ i, (∀ m ∈ c4WitnessMutations, resolveD m ≠ i) → out.1[i]? = zeroDump[i]?) ∧
        (∀ i v, lastMutationValue c4WitnessMutations i = some v → out.1[i]? = some v) ∧
        (∀ m ∈ c4WitnessMutations, assocLookup out.2 (resolveD m) = zeroDump[resolveD m]?)) :=
  ⟨⟨by decide, setParameters_rmw.1 3 (by decide)⟩,
   ⟨by decide, setParameters_rmw.2.1 600 (by decide)⟩,
   ⟨by decide, by decide,
     setParameters_rmw.2.2 zeroDump c4WitnessMutations (by decide) (by decide)⟩⟩

/-! ### C9 — 512-byte parameter blocks and index bounds -/

theorem decodeDumpedMionParameters_length {packet : List Nat} {p : DumpedMionParameters}
    (h : decodeDumpedMionParameters packet = .ok p) : p.parameters.length = 512 := by
  unfold decodeDumpedMionParameters at h
  split at h
  · cases h
  · split at h
    · cases h
    · split at h
      · cases h
      · split at h
        · cases h
        · split at h
          · cases h
          · cases h
            simp only [List.length_drop]
            omega

theorem decodeSetMionParameters_length {packet : List Nat} {q : SetMionParameters}
    (h : decodeSetMionParameters packet = .ok q) : q.parameters.length = 512 := by
  unfold decodeSetMionParameters at h
  split at h
  · cases h
  · split at h
    · cases h
    · split at h
      · cases h
      · split at h
        · cases h
        · split at h
          · cases h
          · cases h
            simp only [List.length_drop]
            omega

theorem setMionParametersNew_length {bytes : List Nat} {q : SetMionParameters}
    (h : SetMionParameters.new bytes = .ok q) : q.parameters.length = 512 := by
  by_cases hb : bytes.length ≠ 512
  · rw [SetMionParameters.new, if_pos hb] at h
    cases h
  · rw [SetMionParameters.new, if_neg hb] at h
    cases h
    exact not_not.mp hb

theorem paramBlock_getElem?_isSome {params : List Nat} (hlen : params.length = 512)
    {idx : Nat} (h : idx ≤ 511) : ∃ b, params[idx]? = some b := by
  cases hcase : params[idx]? with
  | none =>
    rw [List.getElem?_eq_none_iff] at hcase
    omega
  | some b => exact ⟨b, rfl⟩

/-- C9: every `DumpedMionParameters` or `SetMionParameters` produced by the
public constructors (decoding an exactly-520-byte packet, or
`SetMionParameters::new` on exactly 512 bytes) holds exactly 512 parameter
bytes, so `get_parameter_by_index` returns the stored byte for every index
at most 511, the range error for every index above 511, and never reaches
the out-of-bounds index panic. -/
theorem parameterBlock_index_safety :
    (∀ packet p, decodeDumpedMionParameters packet = .ok p →
      p.parameters.length = 512 ∧
      (∀ idx, idx ≤ 511 → ∃ b, p.get_parameter_by_index idx = .ok b ∧
        p.parameters[idx]? = some b) ∧
      (∀ idx, 511 < idx →
        p.get_parameter_by_index idx = .err (.MIONParameterNotInRage idx))) ∧
    (∀ bytes q, SetMionParameters.new bytes = .ok q →
      q.parameters.length = 512 ∧
      (∀ idx, idx ≤ 511 → ∃ b, q.get_parameter_by_index idx = .ok b ∧
        q.parameters[idx]? = some b) ∧
      (∀ idx, 511 < idx →
        q.get_parameter_by_index idx = .err (.MIONParameterNotInRage idx))) ∧
    (∀ packet q, decodeSetMionParameters packet = .ok q →
      q.parameters.length = 512 ∧
      (∀ idx, idx ≤ 511 → ∃ b, q.get_parameter_by_index idx = .ok b ∧
        q.parameters[idx]? = some b) ∧
      (∀ idx, 511 < idx →
        q.get_parameter_by_index idx = .err (.MIONParameterNotInRage idx))) := by
  refine ⟨?_, ?_, ?_⟩
  · intro packet p h
    have hlen := decodeDumpedMionParameters_length h
    refine ⟨hlen, fun idx hidx => ?_, fun idx hidx => ?_⟩
    · obtain ⟨b, hb⟩ := paramBlock_getElem?_isSome hlen hidx
      refine ⟨b, ?_, hb⟩
      rw [DumpedMionParameters.get_parameter_by_index, if_neg (by omega)]
      simp only [hb]
    · rw [DumpedMionParameters.get_parameter_by_index, if_pos hidx]
  · intro bytes q h
    have hlen := setMionParametersNew_length h
    refine ⟨hlen, fun idx hidx => ?_, fun idx hidx => ?_⟩
    · obtain ⟨b, hb⟩ := paramBlock_getElem?_isSome hlen hidx
      refine ⟨b, ?_, hb⟩
      rw [SetMionParameters.get_parameter_by_index, if_neg (by omega)]
      simp only [hb]
    · rw [SetMionParameters.get_parameter_by_index, if_pos hidx]
  · intro packet q h
    have hlen := decodeSetMionParameters_length h
    refine ⟨hlen, fun idx hidx => ?_, fun idx hidx => ?_⟩
    · obtain ⟨b, hb⟩ := paramBlock_getElem?_isSome hlen hidx
      refine ⟨b, ?_, hb⟩
      rw [SetMionParameters.get_parameter_by_index, if_neg (by omega)]
      simp only [hb]
    · rw [SetMionParameters.get_parameter_by_index, if_pos hidx]

/-- C9 witness: the index-safety theorem applied to the concrete 520-byte
dump and set packets and the 512-byte `new` payload. -/
theorem parameterBlock_index_safety_witness :
    (decodeDumpedMionParameters c9DumpPacket = .ok ⟨List.replicate 512 0⟩ ∧
      (⟨List.replicate 512 0⟩ : DumpedMionParameters).parameters.length = 512) ∧
    (SetMionParameters.new zeroDump = .ok ⟨zeroDump⟩ ∧
      (⟨zeroDump⟩ : SetMionParameters).parameters.length = 512) ∧
    (decodeSetMionParameters c9SetPacket = .ok ⟨List.replicate 512 0⟩ ∧
      (⟨List.replicate 512 0⟩ : SetMionParameters).parameters.length = 512) :=
  ⟨⟨by decide, (parameterBlock_index_safety.1 c9DumpPacket _ (by decide)).1⟩,
   ⟨by decide, (parameterBlock_index_safety.2.1 zeroDump _ (by decide)).1⟩,
   ⟨by decide, (parameterBlock_index_safety.2.2 c9SetPacket _ (by decide)).1⟩⟩

/-! ### C8 — the serial line reader on `"hello\rworld"` -/

/-- C8: feeding the reader the bytes of `"hello\rworld"` followed by EOF
yields `Some "hello"` (trailing `\r` stripped), then `Some "world"` (the
buffered partial line flushed at EOF), then `None` for clean EOF with
empty buffers. -/
theorem serialLines_hello_world :
    (pollNextLine ⟨c8Input, [], ""⟩).1 = .ok (some "hello") ∧
    (pollNextLine (pollNextLine ⟨c8Input, [], ""⟩).2).1 = .ok (some "world") ∧
    (pollNextLine (pollNextLine ⟨c8Input, [], ""⟩).2).2.source = [] ∧
    (pollNextLine (pollNextLine ⟨c8Input, [], ""⟩).2).2.bytes = [] ∧
    (pollNextLine (pollNextLine ⟨c8Input, [], ""⟩).2).2.buf = "" ∧
    (pollNextLine (pollNextLine (pollNextLine ⟨c8Input, [], ""⟩).2).2).1 = .ok none :=
  ⟨by decide, by decide, by decide, by decide, by decide, by decide⟩

end Sprig
